import Mathlib

/-!
Verification of the PiTrader signal pipeline.

Shallow embedding in Lean 4 of the pure computational core of the
PiTraderBumbleBot repository: scoring and signal generation (`main.py`),
technical indicators (`analysis/technical.py`), sentiment aggregation
(`analysis/sentiment.py`), the circuit breaker and retry decorators
(`utils/decorators.py`), the sliding-window rate limiter
(`data/twelve_data.py`), the TTL/LRU cache (`utils/cache.py`) and the
Ollama sentiment adapter (`data/ollama_client.py`).

Python floats are modelled as rationals; wall-clock time is an explicit
rational parameter; network and LLM effects are oracle parameters.
-/

namespace PiTrader

/-! ## Rounding helpers

Python `round(x, n)` rounds to the nearest multiple of `10 ^ (-n)`,
resolving ties to the even candidate (banker's rounding). -/

/-- Round a rational to the nearest integer, ties to even. -/
def roundHalfEven (q : ℚ) : ℤ :=
  let f := Int.floor q
  let r := q - f
  if r < 1/2 then f
  else if 1/2 < r then f + 1
  else if f % 2 = 0 then f else f + 1

/-- Python `round(x, 1)`. -/
def round1 (x : ℚ) : ℚ := (roundHalfEven (x * 10) : ℚ) / 10

/-- Python `round(x, 2)`. -/
def round2 (x : ℚ) : ℚ := (roundHalfEven (x * 100) : ℚ) / 100

/-! ## Sentiment aggregation (`SentimentAnalyzer._calculate_score`)

`analysis/sentiment.py` lines 135-173.  `articles_analyzed` equals
`positive_count + negative_count + neutral_count`, because every valid
per-article result increments exactly one of the three counters.
Returns the pair (total_score, sentiment_label). -/

def calcSentimentScore (positive_count negative_count neutral_count : ℕ) : ℚ × String :=
  let total := positive_count + negative_count + neutral_count
  if total = 0 then (3/2, "NEUTRAL")
  else
    let posFrac : ℚ := (positive_count : ℚ) / (total : ℚ)
    let negFrac : ℚ := (negative_count : ℚ) / (total : ℚ)
    if posFrac ≥ 3/5 then (3, "VERY_POSITIVE")
    else if posFrac ≥ 2/5 then (2, "POSITIVE")
    else if negFrac ≥ 3/5 then (0, "VERY_NEGATIVE")
    else if negFrac ≥ 2/5 then (1, "NEGATIVE")
    else (3/2, "NEUTRAL")

/-! ## Combined score and promotion decision (`PiTrader._generate_signals`)

`main.py` lines 261-277: normalisation of the four sub-scores and the
alert-threshold test. -/

/-- `ScoringConfig.alert_threshold` default (config.py line 123). -/
def alert_threshold : ℚ := 15/2

/-- The combined 4-component score from `main.py` lines 269-275. -/
def combinedScore (market_score : ℤ) (tech_score fund_total sent_score : ℚ) : ℚ :=
  let market_norm : ℚ := ((market_score : ℚ) + 1) * (5/4)
  let tech_norm : ℚ := tech_score / 3 * (5/2)
  let fund_norm : ℚ := fund_total / 3 * (5/2)
  let sent_norm : ℚ := sent_score / 3 * (5/2)
  market_norm + tech_norm + fund_norm + sent_norm

/-! ## Analyzer result dataclasses

Field-for-field translations of the `@dataclass` definitions.  The
`analysis_time` datetime fields are modelled as rational timestamps. -/

/-- `analysis/market_context.py` lines 30-51. -/
structure MarketContext where
  sp500_current : Option ℚ := none
  sp500_high_52w : Option ℚ := none
  sp500_drawdown : Option ℚ := none
  is_bear_market : Bool := false
  is_correction : Bool := false
  vix_current : Option ℚ := none
  volatility_level : String := "NORMAL"
  market_score : ℤ := 0
  recommendation : String := ""
  analysis_time : ℚ := 0
  is_valid : Bool := true
  errors : List String := []
deriving DecidableEq

/-- `analysis/fundamentals.py` lines 28-52. -/
structure FundamentalScore where
  symbol : String
  total_score : ℚ
  net_margin : Option ℚ := none
  net_margin_score : ℚ := 0
  debt_to_equity : Option ℚ := none
  debt_equity_score : ℚ := 0
  roe : Option ℚ := none
  roe_score : ℚ := 0
  quality_rating : String := "UNKNOWN"
  strengths : List String := []
  weaknesses : List String := []
  analysis_time : ℚ := 0
  is_valid : Bool := true
  error : Option String := none
deriving DecidableEq

/-- `analysis/technical.py` lines 25-52. -/
structure TechnicalScore where
  symbol : String
  total_score : ℚ := 0
  price : Option ℚ := none
  ma50 : Option ℚ := none
  rsi : Option ℚ := none
  above_ma50 : Bool := false
  ma50_distance : ℚ := 0
  days_above_ma50 : ℕ := 0
  momentum_5d : ℚ := 0
  momentum_20d : ℚ := 0
  is_accelerating : Bool := false
  timing_signal : String := "NEUTRAL"
  trend_signal : String := "NEUTRAL"
  rsi_signal : String := "NEUTRAL"
  is_valid : Bool := true
  error : Option String := none
deriving DecidableEq

/-- `analysis/sentiment.py` lines 28-50. -/
structure SentimentScore where
  symbol : String
  total_score : ℚ
  articles_analyzed : ℕ := 0
  positive_count : ℕ := 0
  negative_count : ℕ := 0
  neutral_count : ℕ := 0
  headlines : List String := []
  sentiment_label : String := "UNKNOWN"
  summary : String := ""
  analysis_time : ℚ := 0
  is_valid : Bool := true
  error : Option String := none
deriving DecidableEq

/-- `storage/signals_store.py` lines 33-77 (`SignalRecord`).  The uuid and
iso-timestamp default factories are modelled as empty strings. -/
structure SignalRecord where
  id : String := ""
  timestamp : String := ""
  symbol : String := ""
  price_at_signal : Option ℚ := none
  scores : List (String × ℚ) := []
  total_score : ℚ := 0
  confidence : ℚ := 0
  macro_summary : String := ""
  market_summary : String := ""
  fundamental_summary : String := ""
  sentiment_summary : String := ""
  rating : Option ℤ := none
  rated_at : Option String := none
  price_after_7d : Option ℚ := none
  actual_return : Option ℚ := none
  performance_updated_at : Option String := none
deriving DecidableEq

/-! ## Technical analysis (`analysis/technical.py`)

Pure translation of `TechnicalAnalyzer`.  Parameters from `__init__`:
`rsi_period = 14`, `rsi_overbought = 70`, `rsi_oversold = 30`,
`ma_period = 50`. -/

namespace TechnicalAnalyzer

def rsi_period : ℕ := 14
def rsi_overbought : ℚ := 70
def rsi_oversold : ℚ := 30
def ma_period : ℕ := 50

/-- Consecutive differences `prices[i] - prices[i-1]` for `i = 1, ...`. -/
def diffs (prices : List ℚ) : List ℚ :=
  (prices.zip prices.tail).map (fun p => p.2 - p.1)

/-- The Wilder smoothing loop of `_calculate_rsi` (lines 100-102):
update `avg = (avg * 13 + new) / 14` over the remaining gain/loss pairs. -/
def wilderSmooth (seed : ℚ × ℚ) (rest : List (ℚ × ℚ)) : ℚ × ℚ :=
  rest.foldl
    (fun a gl => ((a.1 * (rsi_period - 1 : ℕ) + gl.1) / rsi_period,
                  (a.2 * (rsi_period - 1 : ℕ) + gl.2) / rsi_period))
    seed

/-- `TechnicalAnalyzer._calculate_rsi` (lines 67-110).  Input `prices` is
most-recent-first, as returned by the data client; the function reverses it
to chronological order before differencing. -/
def calculate_rsi (prices : List ℚ) : Option ℚ :=
  if prices.length < rsi_period + 1 then none
  else
    let ps := prices.reverse
    let changes := diffs ps
    let gains := changes.map (fun c => if 0 < c then c else 0)
    let losses := changes.map (fun c => if 0 < c then 0 else -c)
    if gains.length < rsi_period then none
    else
      let avg_gain := (gains.take rsi_period).sum / rsi_period
      let avg_loss := (losses.take rsi_period).sum / rsi_period
      let smoothed :=
        wilderSmooth (avg_gain, avg_loss) ((gains.drop rsi_period).zip (losses.drop rsi_period))
      if smoothed.2 = 0 then some 100
      else
        let rs := smoothed.1 / smoothed.2
        some (round1 (100 - 100 / (1 + rs)))

/-- `TechnicalAnalyzer._calculate_ma` (lines 112-117). -/
def calculate_ma (prices : List ℚ) (period : ℕ) : Option ℚ :=
  if prices.length < period then none
  else some ((prices.take period).sum / period)

/-- Loop body of `_count_days_above_ma`: from index `i`, count consecutive
days (at most `fuel` more) whose close is above the moving average. -/
def countDaysLoop (closes : List ℚ) (maPeriod : ℕ) : ℕ → ℕ → ℕ
  | _, 0 => 0
  | i, fuel + 1 =>
    let ma := ((closes.drop i).take maPeriod).sum / maPeriod
    if closes.getD i 0 > ma then 1 + countDaysLoop closes maPeriod (i + 1) fuel
    else 0

/-- `TechnicalAnalyzer._count_days_above_ma` (lines 119-141). -/
def count_days_above_ma (closes : List ℚ) (maPeriod : ℕ) : ℕ :=
  if closes.length < maPeriod + 10 then 0
  else countDaysLoop closes maPeriod 0 (min 30 (closes.length - maPeriod))

/-- `TechnicalAnalyzer._calculate_momentum` (lines 143-154). -/
def calculate_momentum (closes : List ℚ) (days : ℕ) : ℚ :=
  if closes.length < days + 1 then 0
  else
    let current := closes.headI
    let past := closes.getD days 0
    if past = 0 then 0
    else (current - past) / past * 100

/-- `TechnicalAnalyzer._determine_timing` (lines 156-190). -/
def determine_timing (days_above : ℕ) (momentum_5d momentum_20d ma50_distance : ℚ) : String :=
  if days_above = 0 then "NEUTRAL"
  else if days_above ≤ 5 ∧ momentum_5d > momentum_20d / 4 then "EARLY"
  else if 5 < days_above ∧ days_above ≤ 15 ∧ ma50_distance < 8 then "OPTIMAL"
  else if 5 < days_above ∧ days_above ≤ 15 ∧ momentum_5d > momentum_20d / 4 then "OPTIMAL"
  else if (15 < days_above ∨ 15 < ma50_distance) ∧ momentum_5d ≤ 0 then "LATE"
  else "NEUTRAL"

/-- `TechnicalAnalyzer._calculate_score` (lines 275-341), the 0-3 technical
score. -/
def calculate_score (above_ma50 : Bool) (ma50_distance : ℚ) (rsi : Option ℚ)
    (rsi_signal : String) (timing_signal : String) (is_accelerating : Bool) : ℚ :=
  let s1 : ℚ :=
    if above_ma50 then
      (1/2) + (if 0 < ma50_distance ∧ ma50_distance ≤ 10 then (1/2)
               else if 10 < ma50_distance then (1/4) else 0)
    else
      (if -3 < ma50_distance then (3/10) else 0)
  let s2 : ℚ :=
    match rsi with
    | some r =>
      if rsi_signal = "OVERBOUGHT" then 0
      else if rsi_signal = "OVERSOLD" then (3/4)
      else if 40 ≤ r ∧ r ≤ 60 then (3/4)
      else if 30 ≤ r ∧ r < 40 then 1
      else if 60 < r ∧ r ≤ 70 then (2/5)
      else (1/2)
    | none => (1/2)
  let s3 : ℚ :=
    if timing_signal = "EARLY" then 1
    else if timing_signal = "OPTIMAL" then (3/4)
    else if timing_signal = "LATE" then 0
    else (2/5)
  let s4 : ℚ := if is_accelerating ∧ above_ma50 then (1/4) else 0
  round1 (min 3 (s1 + s2 + s3 + s4))

/-- Python truthiness of an `Optional[float]`: `None` and `0.0` are falsy. -/
def optTruthy (o : Option ℚ) : Bool :=
  match o with
  | some q => decide (q ≠ 0)
  | none => false

/-- `TechnicalAnalyzer.analyze` (lines 192-273), starting from the list of
closing prices (most recent first) already extracted from a valid history
response.  The data-fetch failure branches return an invalid score. -/
def analyze (symbol : String) (closes : List ℚ) : TechnicalScore :=
  if closes.length < ma_period then
    { symbol := symbol, is_valid := false, error := some "Historique insuffisant" }
  else
    let current_price := closes.headI
    let ma50 := calculate_ma closes ma_period
    let rsi := calculate_rsi closes
    let above_ma50 :=
      if optTruthy ma50 then decide (current_price > ma50.getD 0) else false
    let ma50_distance : ℚ :=
      if optTruthy ma50 then (current_price - ma50.getD 0) / ma50.getD 0 * 100 else 0
    let trend_signal :=
      if optTruthy ma50 then
        (if ma50_distance > 5 then "BULLISH"
         else if ma50_distance < -5 then "BEARISH" else "NEUTRAL")
      else "NEUTRAL"
    let rsi_signal :=
      if optTruthy rsi then
        (if rsi.getD 0 > rsi_overbought then "OVERBOUGHT"
         else if rsi.getD 0 < rsi_oversold then "OVERSOLD" else "NEUTRAL")
      else "NEUTRAL"
    let days_above_ma50 := count_days_above_ma closes ma_period
    let momentum_5d := calculate_momentum closes 5
    let momentum_20d := calculate_momentum closes 20
    let is_accelerating :=
      if momentum_20d ≠ 0 then decide (momentum_5d > momentum_20d / 4)
      else decide (momentum_5d > 0)
    let timing_signal := determine_timing days_above_ma50 momentum_5d momentum_20d ma50_distance
    let score := calculate_score above_ma50 ma50_distance rsi rsi_signal timing_signal is_accelerating
    { symbol := symbol
      total_score := score
      price := some current_price
      ma50 := if optTruthy ma50 then some (round2 (ma50.getD 0)) else none
      rsi := rsi
      above_ma50 := above_ma50
      ma50_distance := round1 ma50_distance
      days_above_ma50 := days_above_ma50
      momentum_5d := round2 momentum_5d
      momentum_20d := round2 momentum_20d
      is_accelerating := is_accelerating
      timing_signal := timing_signal
      trend_signal := trend_signal
      rsi_signal := rsi_signal
      is_valid := true }

end TechnicalAnalyzer

/-! ## Python attribute model

`PiTrader._calculate_confidence` (main.py lines 309-357) reads attributes
that the analyzer dataclasses do not declare.  To express this, objects are
modelled as association lists from attribute names to values, built from
the structures above field for field; attribute access either returns the
stored value or fails with an `AttributeError`. -/

inductive PyVal where
  | pyNone
  | pyBool (b : Bool)
  | pyNum (q : ℚ)
  | pyStr (s : String)
  | pyStrList (l : List String)
deriving DecidableEq

/-- A Python object: its `__dict__` as an association list. -/
def Obj := List (String × PyVal)

/-- Attribute access; raises `AttributeError` when the name is absent. -/
def getattr (o : Obj) (name : String) : Except String PyVal :=
  match o.find? (fun p => p.1 = name) with
  | some p => Except.ok p.2
  | none => Except.error ("AttributeError: " ++ name)

/-- Python truthiness of a value. -/
def PyVal.truthy : PyVal → Bool
  | .pyNone => false
  | .pyBool b => b
  | .pyNum q => decide (q ≠ 0)
  | .pyStr s => decide (s ≠ "")
  | .pyStrList l => decide (l ≠ [])

/-- Numeric interpretation; comparison with a non-number raises `TypeError`. -/
def PyVal.asNum : PyVal → Except String ℚ
  | .pyNum q => Except.ok q
  | _ => Except.error "TypeError"

def pyOptNum (o : Option ℚ) : PyVal :=
  match o with
  | some q => .pyNum q
  | none => .pyNone

/-- The `__dict__` of a `MarketContext` instance: exactly the dataclass
fields of `analysis/market_context.py` lines 30-51. -/
def MarketContext.toObj (m : MarketContext) : Obj :=
  [("sp500_current", pyOptNum m.sp500_current),
   ("sp500_high_52w", pyOptNum m.sp500_high_52w),
   ("sp500_drawdown", pyOptNum m.sp500_drawdown),
   ("is_bear_market", .pyBool m.is_bear_market),
   ("is_correction", .pyBool m.is_correction),
   ("vix_current", pyOptNum m.vix_current),
   ("volatility_level", .pyStr m.volatility_level),
   ("market_score", .pyNum m.market_score),
   ("recommendation", .pyStr m.recommendation),
   ("analysis_time", .pyNum m.analysis_time),
   ("is_valid", .pyBool m.is_valid),
   ("errors", .pyStrList m.errors)]

/-- The `__dict__` of a `FundamentalScore` instance (fundamentals.py 28-52). -/
def FundamentalScore.toObj (f : FundamentalScore) : Obj :=
  [("symbol", .pyStr f.symbol),
   ("total_score", .pyNum f.total_score),
   ("net_margin", pyOptNum f.net_margin),
   ("net_margin_score", .pyNum f.net_margin_score),
   ("debt_to_equity", pyOptNum f.debt_to_equity),
   ("debt_equity_score", .pyNum f.debt_equity_score),
   ("roe", pyOptNum f.roe),
   ("roe_score", .pyNum f.roe_score),
   ("quality_rating", .pyStr f.quality_rating),
   ("strengths", .pyStrList f.strengths),
   ("weaknesses", .pyStrList f.weaknesses),
   ("analysis_time", .pyNum f.analysis_time),
   ("is_valid", .pyBool f.is_valid),
   ("error", match f.error with | some e => .pyStr e | none => .pyNone)]

/-- The `__dict__` of a `TechnicalScore` instance (technical.py 25-52). -/
def TechnicalScore.toObj (t : TechnicalScore) : Obj :=
  [("symbol", .pyStr t.symbol),
   ("total_score", .pyNum t.total_score),
   ("price", pyOptNum t.price),
   ("ma50", pyOptNum t.ma50),
   ("rsi", pyOptNum t.rsi),
   ("above_ma50", .pyBool t.above_ma50),
   ("ma50_distance", .pyNum t.ma50_distance),
   ("days_above_ma50", .pyNum t.days_above_ma50),
   ("momentum_5d", .pyNum t.momentum_5d),
   ("momentum_20d", .pyNum t.momentum_20d),
   ("is_accelerating", .pyBool t.is_accelerating),
   ("timing_signal", .pyStr t.timing_signal),
   ("trend_signal", .pyStr t.trend_signal),
   ("rsi_signal", .pyStr t.rsi_signal),
   ("is_valid", .pyBool t.is_valid),
   ("error", match t.error with | some e => .pyStr e | none => .pyNone)]

/-- The `__dict__` of a `SentimentScore` instance (sentiment.py 28-50). -/
def SentimentScore.toObj (s : SentimentScore) : Obj :=
  [("symbol", .pyStr s.symbol),
   ("total_score", .pyNum s.total_score),
   ("articles_analyzed", .pyNum s.articles_analyzed),
   ("positive_count", .pyNum s.positive_count),
   ("negative_count", .pyNum s.negative_count),
   ("neutral_count", .pyNum s.neutral_count),
   ("headlines", .pyStrList s.headlines),
   ("sentiment_label", .pyStr s.sentiment_label),
   ("summary", .pyStr s.summary),
   ("analysis_time", .pyNum s.analysis_time),
   ("is_valid", .pyBool s.is_valid),
   ("error", match s.error with | some e => .pyStr e | none => .pyNone)]

/-- Exception propagation: run the continuation unless an exception is in
flight. -/
def exBind {α β : Type} (x : Except String α) (k : α → Except String β) :
    Except String β :=
  match x with
  | .error e => .error e
  | .ok a => k a

/-- `PiTrader._calculate_confidence` (main.py lines 309-357), translated
statement by statement over the attribute model.  `tech` and `sent` are
optional objects (`Optional[TechnicalScore]`, `Optional[SentimentScore]`);
`none` is falsy in the `tech and ...` / `sent and ...` conditions. -/
def calculate_confidence (market fund : Obj) (tech sent : Option Obj) :
    Except String ℚ :=
  -- 1. validity of the sources (0.25 each)
  exBind (getattr market "is_valid") fun mv =>
  let factors1 : List ℚ := if mv.truthy then [1/4] else []
  exBind (getattr fund "is_valid") fun fv =>
  let factors2 := if fv.truthy then factors1 ++ [1/4] else factors1
  exBind (match tech with
          | none => Except.ok false
          | some t => exBind (getattr t "is_valid") fun tv => Except.ok tv.truthy)
    fun techValid =>
  let factors3 := if techValid then factors2 ++ [1/4] else factors2 ++ [1/10]
  exBind (match sent with
          | none => Except.ok (factors3 ++ [1/10])
          | some s =>
            exBind (getattr s "is_valid") fun sv =>
            if sv.truthy then
              exBind (getattr s "avg_confidence") fun ac =>
              exBind ac.asNum fun acn =>
              Except.ok (factors3 ++ [if 0 < acn then (1/4) * acn else 3/20])
            else Except.ok (factors3 ++ [1/10]))
    fun factors4 =>
  -- 2. technical bonus: strong position above the 50-day moving average
  exBind (match tech with
          | none => Except.ok factors4
          | some t =>
            exBind (getattr t "is_valid") fun tv =>
            if tv.truthy then
              exBind (getattr t "ma50_distance") fun d =>
              exBind d.asNum fun dn =>
              Except.ok (if 5 < dn then factors4 ++ [1/20] else factors4)
            else Except.ok factors4)
    fun factors5 =>
  -- 3. technical bonus: RSI in the ideal 40-60 band
  exBind (match tech with
          | none => Except.ok factors5
          | some t =>
            exBind (getattr t "is_valid") fun tv =>
            if tv.truthy then
              exBind (getattr t "rsi") fun r =>
              if r.truthy then
                exBind r.asNum fun rn =>
                Except.ok (if 40 ≤ rn ∧ rn ≤ 60 then factors5 ++ [1/20] else factors5)
              else Except.ok factors5
            else Except.ok factors5)
    fun factors6 =>
  -- 4. bonus for the number of analyzed articles
  exBind (match sent with
          | none => Except.ok factors6
          | some s =>
            exBind (getattr s "articles_analyzed") fun aa =>
            exBind aa.asNum fun aan =>
            Except.ok (if 3 ≤ aan then factors6 ++ [1/20] else factors6))
    fun factors7 =>
  -- 5. bonus for detected abnormal volume
  exBind (getattr market "high_volume_count") fun hv =>
  exBind hv.asNum fun hvn =>
  let factors8 := if 0 < hvn then factors7 ++ [1/20] else factors7
  Except.ok (min 1 factors8.sum)

/-! ## Signal generation (`PiTrader._generate_signals`, main.py 229-307)

The dict comprehensions `{t.symbol: t for t in technicals}` keep the last
occurrence of a symbol, hence the lookup in the reversed list.  The
`twelve_data_client.get_quote` fallback for a missing price is an oracle
`quote : String → Option ℚ` giving the quoted price when the quote is
valid.  `signals_store.save_signal` appends to the returned list; an
exception carries the signals already saved. -/

def techLookup (technicals : List TechnicalScore) (symbol : String) : Option TechnicalScore :=
  technicals.reverse.find? (fun t => t.symbol = symbol)

def sentLookup (sentiments : List SentimentScore) (symbol : String) : Option SentimentScore :=
  sentiments.reverse.find? (fun s => s.symbol = symbol)

/-- `tech.total_score if (tech and tech.is_valid) else 1.5` (line 261). -/
def effTechScore (tech : Option TechnicalScore) : ℚ :=
  match tech with
  | some t => if t.is_valid then t.total_score else 3/2
  | none => 3/2

/-- `sent.total_score if sent else 1.5` (line 262). -/
def effSentScore (sent : Option SentimentScore) : ℚ :=
  match sent with
  | some s => s.total_score
  | none => 3/2

/-- The two `continue` filters of the loop (lines 254-259): true when the
symbol survives the MM50 filter and the RSI-overbought filter. -/
def symbolGates (tech : Option TechnicalScore) : Bool :=
  !(match tech with | some t => t.is_valid && !t.above_ma50 | none => false) &&
  !(match tech with | some t => t.is_valid && decide (t.rsi_signal = "OVERBOUGHT") | none => false)

/-- The decision taken by the loop body for one symbol: valid fundamentals,
filters passed, and combined score at or above the threshold.  This is the
condition under which the `SignalRecord` construction branch is entered. -/
def promoted (threshold : ℚ) (market : MarketContext) (fund : FundamentalScore)
    (tech : Option TechnicalScore) (sent : Option SentimentScore) : Bool :=
  fund.is_valid && symbolGates tech &&
  decide (threshold ≤ combinedScore market.market_score (effTechScore tech)
            fund.total_score (effSentScore sent))

/-- `price = tech.price if (tech and tech.is_valid) else None;
if not price: quote = get_quote(...); price = quote.price if valid else None`
(lines 279-282).  `not price` is Python truthiness: `None` and `0.0`. -/
def signalPrice (quote : String → Option ℚ) (symbol : String)
    (tech : Option TechnicalScore) : Option ℚ :=
  let price : Option ℚ :=
    match tech with
    | some t => if t.is_valid then t.price else none
    | none => none
  match price with
  | some p => if p = 0 then quote symbol else some p
  | none => quote symbol

/-- One iteration of the loop over `fundamentals` (lines 246-305):
either no signal, a constructed and saved `SignalRecord`, or an exception
escaping from `_calculate_confidence`. -/
def processSymbol (threshold : ℚ) (quote : String → Option ℚ) (market : MarketContext)
    (technicals : List TechnicalScore) (sentiments : List SentimentScore)
    (fund : FundamentalScore) : Except String (Option SignalRecord) :=
  if !fund.is_valid then Except.ok none
  else
    let tech := techLookup technicals fund.symbol
    let sent := sentLookup sentiments fund.symbol
    if (match tech with | some t => t.is_valid && !t.above_ma50 | none => false) then
      Except.ok none
    else if (match tech with
             | some t => t.is_valid && decide (t.rsi_signal = "OVERBOUGHT")
             | none => false) then
      Except.ok none
    else
      let tech_score := effTechScore tech
      let sent_score := effSentScore sent
      let score := combinedScore market.market_score tech_score fund.total_score sent_score
      if threshold ≤ score then
        let price := signalPrice quote fund.symbol tech
        exBind (calculate_confidence market.toObj fund.toObj
            (tech.map TechnicalScore.toObj) (sent.map SentimentScore.toObj))
          fun confidence =>
        Except.ok (some
          { symbol := fund.symbol
            total_score := score
            confidence := confidence
            scores := [("market", (market.market_score : ℚ)), ("technical", tech_score),
                       ("momentum", fund.total_score), ("sentiment", sent_score)]
            price_at_signal := price })
      else Except.ok none

/-- Outcome of `_generate_signals`: the returned list, or an uncaught
exception together with the signals already saved to the store. -/
inductive RunOutcome where
  | ok (signals : List SignalRecord)
  | raised (err : String) (saved : List SignalRecord)
deriving DecidableEq

/-- The loop over `fundamentals`, accumulating appended-and-saved signals. -/
def generateLoop (threshold : ℚ) (quote : String → Option ℚ) (market : MarketContext)
    (technicals : List TechnicalScore) (sentiments : List SentimentScore) :
    List FundamentalScore → List SignalRecord → RunOutcome
  | [], acc => .ok acc
  | fund :: rest, acc =>
    match processSymbol threshold quote market technicals sentiments fund with
    | .error e => .raised e acc
    | .ok none => generateLoop threshold quote market technicals sentiments rest acc
    | .ok (some s) => generateLoop threshold quote market technicals sentiments rest (acc ++ [s])

/-- `PiTrader._generate_signals` (lines 229-307). -/
def generate_signals (threshold : ℚ) (quote : String → Option ℚ) (market : MarketContext)
    (fundamentals : List FundamentalScore) (technicals : List TechnicalScore)
    (sentiments : List SentimentScore) : RunOutcome :=
  if market.market_score < 0 then .ok []
  else generateLoop threshold quote market technicals sentiments fundamentals []

/-- Signals actually saved to the store by the run, in either outcome. -/
def savedSignals : RunOutcome → List SignalRecord
  | .ok l => l
  | .raised _ l => l

/-- `PiTrader.run_full_analysis` (lines 162-227), from the phase-5 point of
view: the phase results are inputs, the signal count is returned, and an
exception escaping phase 5 is caught by the surrounding handler, which
makes the function return `-1`. -/
def run_full_analysis (threshold : ℚ) (quote : String → Option ℚ) (market : MarketContext)
    (fundamentals : List FundamentalScore) (technicals : List TechnicalScore)
    (sentiments : List SentimentScore) : ℤ :=
  match generate_signals threshold quote market fundamentals technicals sentiments with
  | .ok signals => signals.length
  | .raised _ _ => -1

/-- A symbol qualifies when the loop body reaches the `SignalRecord`
construction branch: valid fundamentals, both technical filters passed,
combined score at or above the threshold. -/
def qualifies (threshold : ℚ) (market : MarketContext) (technicals : List TechnicalScore)
    (sentiments : List SentimentScore) (fund : FundamentalScore) : Bool :=
  promoted threshold market fund (techLookup technicals fund.symbol)
    (sentLookup sentiments fund.symbol)

/-- The attribute error raised by `_calculate_confidence`: accessing
`sent.avg_confidence` when a valid sentiment result is present, and
`market.high_volume_count` otherwise. -/
def confAttrError (sent : Option SentimentScore) : String :=
  match sent with
  | some s => if s.is_valid then "AttributeError: avg_confidence"
              else "AttributeError: high_volume_count"
  | none => "AttributeError: high_volume_count"

/-! ## Circuit breaker (`utils/decorators.py` lines 81-170)

Wall-clock time is an explicit rational parameter of each call.  A call is
modelled by the check on entry to the wrapper (lines 123-130) followed by
the invocation of the wrapped function, whose outcome (success, or an
exception in the declared set) is a boolean. -/

namespace CircuitBreaker

/-- `CircuitBreakerState` dataclass (lines 81-86). -/
structure State where
  failures : ℕ := 0
  last_failure : Option ℚ := none
  state : String := "closed"
deriving DecidableEq

/-- The fresh state built by `__init__` / `reset`. -/
def State.init : State := {}

/-- `_should_attempt_reset` (lines 142-146). -/
def should_attempt_reset (recovery_timeout : ℚ) (s : State) (now : ℚ) : Bool :=
  match s.last_failure with
  | none => true
  | some lf => decide (now - lf > recovery_timeout)

/-- `_on_success` (lines 148-152). -/
def on_success (s : State) : State :=
  { s with failures := 0, state := "closed" }

/-- `_on_failure` (lines 154-161). -/
def on_failure (failure_threshold : ℕ) (s : State) (now : ℚ) : State :=
  let f := s.failures + 1
  { failures := f
    last_failure := some now
    state := if failure_threshold ≤ f then "open" else s.state }

/-- The state check on entry to the wrapper (lines 123-130): `none` means
the call fails fast with `CircuitBreakerOpenError`; otherwise the state in
which the wrapped function is invoked is returned. -/
def checkPhase (recovery_timeout : ℚ) (s : State) (now : ℚ) : Option State :=
  if s.state = "open" then
    if should_attempt_reset recovery_timeout s now then
      some { s with state := "half-open" }
    else none
  else some s

/-- Result of one call through the wrapper. -/
inductive CallResult where
  | circuitOpenError
  | ran (s' : State)
deriving DecidableEq

/-- One call through the wrapper (lines 119-140): check, then invoke;
`success = false` means the function raised an exception in the declared
set (which is re-raised after `_on_failure`). -/
def call (failure_threshold : ℕ) (recovery_timeout : ℚ) (s : State) (now : ℚ)
    (success : Bool) : CallResult :=
  match checkPhase recovery_timeout s now with
  | none => .circuitOpenError
  | some s1 => .ran (if success then on_success s1 else on_failure failure_threshold s1 now)

/-- The breaker state after one call (unchanged on fail-fast). -/
def stepState (failure_threshold : ℕ) (recovery_timeout : ℚ) (s : State) (now : ℚ)
    (success : Bool) : State :=
  match call failure_threshold recovery_timeout s now success with
  | .circuitOpenError => s
  | .ran s' => s'

/-- The sequence of states the breaker passes through during one call. -/
def callTrace (failure_threshold : ℕ) (recovery_timeout : ℚ) (s : State) (now : ℚ)
    (success : Bool) : List State :=
  match checkPhase recovery_timeout s now with
  | none => [s]
  | some s1 => [s, s1, if success then on_success s1 else on_failure failure_threshold s1 now]

/-- States reachable from the initial state through calls. -/
inductive Reachable (failure_threshold : ℕ) (recovery_timeout : ℚ) : State → Prop where
  | init : Reachable failure_threshold recovery_timeout State.init
  | step (s : State) (now : ℚ) (success : Bool) :
      Reachable failure_threshold recovery_timeout s →
      Reachable failure_threshold recovery_timeout
        (stepState failure_threshold recovery_timeout s now success)

/-- A run of consecutive failing calls at the given times. -/
def failStreak (failure_threshold : ℕ) (recovery_timeout : ℚ) (s : State)
    (times : List ℚ) : State :=
  times.foldl (fun st t => stepState failure_threshold recovery_timeout st t false) s

/-- An edge of the specified state machine: no state change, or one of
closed→open, open→half-open, half-open→closed, half-open→open. -/
def allowedEdge (a b : State) : Prop :=
  a.state = b.state ∨
  (a.state = "closed" ∧ b.state = "open") ∨
  (a.state = "open" ∧ b.state = "half-open") ∨
  (a.state = "half-open" ∧ b.state = "closed") ∨
  (a.state = "half-open" ∧ b.state = "open")

end CircuitBreaker

/-! ## Rate limiter (`TwelveDataClient._enforce_rate_limit`, twelve_data.py 82-121)

The sliding window `_request_times` is a list of (timestamp, credits)
pairs in append order.  `time.sleep` advances the explicit clock; the
function returns the new window and the time at which the call is
recorded. -/

namespace RateLimiter

/-- Line 99 and line 113: drop entries older than one minute. -/
def pruneWindow (now : ℚ) (times : List (ℚ × ℕ)) : List (ℚ × ℕ) :=
  times.filter (fun p => now - p.1 < 60)

/-- Step 3 (lines 104-113): when the projected total exceeds the cap and
the window is non-empty, sleep until the oldest entry ages out plus the 2s
margin, then prune again. -/
def rateWait (cap : ℕ) (t1 : List (ℚ × ℕ)) (now : ℚ) (credits_used : ℕ) :
    List (ℚ × ℕ) × ℚ :=
  let total := (t1.map Prod.snd).sum
  if cap < total + credits_used then
    match t1 with
    | [] => (t1, now)
    | (oldest_time, _) :: _ =>
      let wait_time := 60 - (now - oldest_time) + 2
      if 0 < wait_time then
        let now2 := now + wait_time
        (pruneWindow now2 t1, now2)
      else (t1, now)
  else (t1, now)

/-- Step 4 (lines 115-119): sleep out the minimum delay since the last
recorded call. -/
def rateMinDelay (min_delay : ℚ) (t2 : List (ℚ × ℕ)) (now2 : ℚ) : ℚ :=
  match t2.getLast? with
  | some last =>
    if now2 - last.1 < min_delay then now2 + (min_delay - (now2 - last.1)) else now2
  | none => now2

/-- `_enforce_rate_limit` with the per-minute credit cap and minimum delay
from the configuration as parameters (`requests_per_minute = 8`,
`request_delay = 8.0`): prune, wait out the cap, wait out the minimum
delay, then record the call with its credit cost. -/
def enforce_rate_limit (cap : ℕ) (min_delay : ℚ) (times : List (ℚ × ℕ)) (now : ℚ)
    (credits_used : ℕ) : List (ℚ × ℕ) × ℚ :=
  let t1 := pruneWindow now times
  let afterWait := rateWait cap t1 now credits_used
  let t2 := afterWait.1
  let now3 := rateMinDelay min_delay t2 afterWait.2
  (t2 ++ [(now3, credits_used)], now3)

/-- Total credits of the entries lying in the rolling 60-second window
ending at `T`. -/
def windowCredits (entries : List (ℚ × ℕ)) (T : ℚ) : ℕ :=
  ((entries.filter (fun p => T - 60 < p.1 ∧ p.1 ≤ T)).map Prod.snd).sum

end RateLimiter

/-! ## TTL/LRU cache (`utils/cache.py` lines 24-146)

The `OrderedDict` plus timestamp table is one list of (key, value,
insertion time) triples, head = least recently used.  The clock is an
explicit parameter of each operation. -/

namespace TTLCache

structure Cache (α β : Type) where
  maxsize : ℕ
  ttl : ℚ
  entries : List (α × β × ℚ)

/-- `TTLCache.get` (lines 49-71): absent, expired (evicts), or hit (moves
the key to most-recently-used position). -/
def get {α β : Type} [DecidableEq α] (c : Cache α β) (now : ℚ) (key : α) :
    Option β × Cache α β :=
  match c.entries.find? (fun e => e.1 = key) with
  | none => (none, c)
  | some e =>
    if now - e.2.2 > c.ttl then
      (none, { c with entries := c.entries.filter (fun x => x.1 ≠ key) })
    else
      (some e.2.1, { c with entries := c.entries.filter (fun x => x.1 ≠ key) ++ [e] })

/-- The `while len(cache) >= maxsize` eviction loop of `set` (lines 83-86),
deleting the least recently used entry each iteration. -/
def evictOldest {α β : Type} (maxsize : ℕ) (l : List (α × β × ℚ)) : List (α × β × ℚ) :=
  if h : maxsize ≤ l.length ∧ 0 < l.length then evictOldest maxsize l.tail else l
termination_by l.length
decreasing_by
  cases l with
  | nil => exact absurd h.2 (by simp)
  | cons a t => simp

/-- `TTLCache.set` (lines 73-90): evict while at capacity, store the value
with the current timestamp, mark most recently used. -/
def set {α β : Type} [DecidableEq α] (c : Cache α β) (now : ℚ) (key : α) (value : β) :
    Cache α β :=
  let l1 := evictOldest c.maxsize c.entries
  { c with entries := l1.filter (fun x => x.1 ≠ key) ++ [(key, value, now)] }

/-- Apply `set` for each (key, value, time) triple in order. -/
def setAll {α β : Type} [DecidableEq α] (c : Cache α β) (inserts : List (α × β × ℚ)) :
    Cache α β :=
  inserts.foldl (fun c e => set c e.2.2 e.1 e.2.1) c

/-- The empty cache. -/
def empty (α β : Type) (maxsize : ℕ) (ttl : ℚ) : Cache α β :=
  { maxsize := maxsize, ttl := ttl, entries := [] }

end TTLCache

/-! ## Retry with exponential backoff (`retry_with_backoff`, decorators.py 22-78)

The wrapped operation is an oracle giving the outcome of each attempt:
success with a value, or an exception tagged with whether it belongs to
the declared retryable set.  The result is the returned value or the
escaping exception, together with the list of sleep durations and the
number of invocations of the wrapped function. -/

namespace Retry

inductive AttemptOutcome (α : Type) where
  | ok (v : α)
  | exn (retryable : Bool) (e : String)

/-- The sleep-duration sequence: `initial_delay`, then
`delay = min(delay * backoff_factor, max_delay)` after each retry
(line 70). -/
def delaySeq (initial_delay backoff_factor max_delay : ℚ) : ℕ → ℚ
  | 0 => initial_delay
  | n + 1 => min (delaySeq initial_delay backoff_factor max_delay n * backoff_factor) max_delay

/-- The `for attempt in range(max_retries + 1)` loop (lines 56-75), with
`remaining = max_retries - attempt` retries left.  A retryable exception
with retries left sleeps `delay` and continues; with none left, the loop
ends and the last exception is re-raised (line 75).  A non-retryable
exception is not caught by the `except exceptions` clause and propagates
at once. -/
def retryLoop {α : Type} (f : ℕ → AttemptOutcome α) (backoff_factor max_delay : ℚ) :
    (remaining : ℕ) → (attempt : ℕ) → (delay : ℚ) → Except String α × List ℚ × ℕ
  | 0, attempt, _ =>
    match f attempt with
    | .ok v => (.ok v, [], 1)
    | .exn _ e => (.error e, [], 1)
  | r + 1, attempt, delay =>
    match f attempt with
    | .ok v => (.ok v, [], 1)
    | .exn true e =>
      let next := retryLoop f backoff_factor max_delay r (attempt + 1)
        (min (delay * backoff_factor) max_delay)
      match next with
      | (res, sleeps, calls) => (res, delay :: sleeps, calls + 1)
    | .exn false e => (.error e, [], 1)

/-- `retry_with_backoff` applied to a wrapped operation. -/
def retry_with_backoff {α : Type} (max_retries : ℕ)
    (initial_delay backoff_factor max_delay : ℚ) (f : ℕ → AttemptOutcome α) :
    Except String α × List ℚ × ℕ :=
  retryLoop f backoff_factor max_delay max_retries 0 initial_delay

end Retry

/-! ## Ollama sentiment adapter (`data/ollama_client.py`)

`analyze_sentiment` (lines 371-456) with the backend modelled as an
environment: availability, the outcome of `_generate` (a response, or an
exception — which also covers any other exception raised inside the `try`
block, such as a failing `float(...)` conversion), and the JSON extraction
`_parse_json_response` as a function from the response text. -/

namespace Ollama

inductive Sentiment where
  | POSITIVE
  | NEGATIVE
  | NEUTRAL
  | UNKNOWN
deriving DecidableEq

/-- `SentimentResult` dataclass (ollama_client.py lines 46-53). -/
structure SentimentResult where
  sentiment : Sentiment
  confidence : ℚ
  reasoning : Option String := none
  is_valid : Bool := true
  error : Option String := none
deriving DecidableEq

/-- The curated positive keyword list (lines 321-324). -/
def positive_words : List String :=
  ["surge", "soar", "gain", "profit", "growth", "beat",
   "positive", "bullish", "upgrade", "record", "strong"]

/-- The curated negative keyword list (lines 325-328). -/
def negative_words : List String :=
  ["fall", "drop", "loss", "decline", "crash", "miss",
   "negative", "bearish", "downgrade", "weak", "warning"]

/-- Python `w in text`. -/
def containsWord (text w : String) : Bool :=
  decide (w.data <:+: text.data)

/-- `OllamaClient._fallback_sentiment` (lines 309-338): deterministic
keyword-count classification. -/
def fallback_sentiment (text : String) : Sentiment :=
  let text_lower := text.toLower
  let pos_count := (positive_words.filter (fun w => containsWord text_lower w)).length
  let neg_count := (negative_words.filter (fun w => containsWord text_lower w)).length
  if neg_count < pos_count then .POSITIVE
  else if pos_count < neg_count then .NEGATIVE
  else .NEUTRAL

/-- Fields extracted by `_parse_json_response` from the model output that
`analyze_sentiment` consumes (`parsed.get(...)`). -/
structure ParsedJson where
  sentiment : Option String := none
  confidence : Option ℚ := none
  reason : Option String := none

/-- Outcome of `_generate` (after its own retries), or of any other
statement inside the `try` block. -/
inductive GenerateOutcome where
  | raises (e : String)
  | responds (r : String)

/-- The backend environment of one `analyze_sentiment` call. -/
structure Env where
  available : Bool
  generate : GenerateOutcome
  parse : String → Option ParsedJson

/-- Python `text.strip()`: drop whitespace from both ends. -/
def pyStrip (text : String) : String :=
  ⟨((text.data.dropWhile fun c => c.isWhitespace).reverse.dropWhile
      (fun c => c.isWhitespace)).reverse⟩

/-- The `sentiment_map.get(..., Sentiment.UNKNOWN)` lookup (lines 412-421). -/
def sentimentFromStr (s : String) : Sentiment :=
  if s = "POSITIF" then .POSITIVE
  else if s = "POSITIVE" then .POSITIVE
  else if s = "NEGATIF" then .NEGATIVE
  else if s = "NEGATIVE" then .NEGATIVE
  else if s = "NEUTRE" then .NEUTRAL
  else if s = "NEUTRAL" then .NEUTRAL
  else .UNKNOWN

/-- `OllamaClient.analyze_sentiment` (lines 371-456). -/
def analyze_sentiment (env : Env) (text : String) : SentimentResult :=
  if (pyStrip text).length < 10 then
    { sentiment := .UNKNOWN, confidence := 0, error := some "Text too short", is_valid := false }
  else
    let text := text.take 500
    if !env.available then
      { sentiment := fallback_sentiment text, confidence := 3/10,
        reasoning := some "Fallback keyword detection" }
    else
      match env.generate with
      | .raises e =>
        { sentiment := fallback_sentiment text, confidence := 1/5, error := some e }
      | .responds r =>
        match env.parse r with
        | some parsed =>
          let sentiment := sentimentFromStr (parsed.sentiment.getD "").toUpper
          let confidence := max 0 (min 1 (parsed.confidence.getD (1/2)))
          { sentiment := sentiment, confidence := confidence, reasoning := parsed.reason }
        | none =>
          { sentiment := fallback_sentiment text, confidence := 3/10,
            reasoning := some "Fallback - JSON parsing failed" }

end Ollama

/-! # Theorems -/

/-! ## Claim C9: sentiment score thresholds -/

/-- Claim C9: given the counts of classified articles, the sentiment score
is determined by the ratio thresholds applied in order — 3.0 when the
positive ratio is at least 0.6, else 2.0 when it is at least 0.4, else 0.0
when the negative ratio is at least 0.6, else 1.0 when it is at least 0.4,
else 1.5; in particular 4 positive / 1 negative / 1 neutral out of 6
articles yield score 3.0 with label VERY_POSITIVE. -/
theorem C9_sentiment_score_thresholds (p n m : ℕ) (h : 0 < p + n + m) :
    ((3/5 ≤ (p : ℚ) / ((p + n + m : ℕ) : ℚ) →
        calcSentimentScore p n m = (3, "VERY_POSITIVE")) ∧
     ((p : ℚ) / ((p + n + m : ℕ) : ℚ) < 3/5 →
        2/5 ≤ (p : ℚ) / ((p + n + m : ℕ) : ℚ) →
        calcSentimentScore p n m = (2, "POSITIVE")) ∧
     ((p : ℚ) / ((p + n + m : ℕ) : ℚ) < 2/5 →
        3/5 ≤ (n : ℚ) / ((p + n + m : ℕ) : ℚ) →
        calcSentimentScore p n m = (0, "VERY_NEGATIVE")) ∧
     ((p : ℚ) / ((p + n + m : ℕ) : ℚ) < 2/5 →
        (n : ℚ) / ((p + n + m : ℕ) : ℚ) < 3/5 →
        2/5 ≤ (n : ℚ) / ((p + n + m : ℕ) : ℚ) →
        calcSentimentScore p n m = (1, "NEGATIVE")) ∧
     ((p : ℚ) / ((p + n + m : ℕ) : ℚ) < 2/5 →
        (n : ℚ) / ((p + n + m : ℕ) : ℚ) < 2/5 →
        calcSentimentScore p n m = (3/2, "NEUTRAL"))) ∧
    calcSentimentScore 4 1 1 = (3, "VERY_POSITIVE") := by
  have htot : ¬ (p + n + m = 0) := by omega
  refine ⟨⟨fun h1 => ?_, fun h1 h2 => ?_, fun h1 h2 => ?_, fun h1 h2 h3 => ?_,
    fun h1 h2 => ?_⟩, by norm_num [calcSentimentScore]⟩ <;>
    simp only [calcSentimentScore, htot, if_false] <;>
    split_ifs <;> first | rfl | linarith

/-- Witness for C9 at 4 positive, 1 negative, 1 neutral articles. -/
theorem C9_sentiment_score_thresholds_witness :
    calcSentimentScore 4 1 1 = (3, "VERY_POSITIVE") :=
  (C9_sentiment_score_thresholds 4 1 1 (by norm_num)).2

/-! ## Claim C1: combined score range and promotion threshold -/

/-- Claim C1 counterexample: with the market at its maximal score (+1,
allowed by the gate `market_score ≥ 0`), a perfect technical score 3, a
perfect fundamental score 5 (`FundamentalScore.total_score` ranges over
[0,5]: margin 2 + debt 2 + ROE 1) and a perfect sentiment score 3, the
symbol passes the gates, is promoted, and the combined score is 35/3,
outside [0,10]. -/
theorem C1_counterexample :
    promoted alert_threshold { market_score := 1 }
        { symbol := "X", total_score := 5 }
        (some { symbol := "X", total_score := 3, above_ma50 := true })
        (some { symbol := "X", total_score := 3 }) = true ∧
    combinedScore 1 3 5 3 = 35/3 ∧ ¬ combinedScore 1 3 5 3 ≤ 10 := by
  refine ⟨?_, by norm_num [combinedScore], by norm_num [combinedScore]⟩
  norm_num [promoted, symbolGates, effTechScore, effSentScore, combinedScore, alert_threshold]
  decide

/-- Claim C1 (amended): for every symbol considered after the gating
filters, the combined score `market_norm + tech_norm + fund_norm +
sent_norm` lands in [0, 35/3] (it exceeds 10 exactly when the
over-weighted fundamental component compensates, since
`fund.total_score ∈ [0,5]` is divided by 3), and the symbol is promoted to
a `SignalRecord` iff that combined score is at least the configured alert
threshold (default 7.5). -/
theorem C1_combined_score_range_and_promotion
    (market : MarketContext) (fund : FundamentalScore)
    (tech : Option TechnicalScore) (sent : Option SentimentScore)
    (hm0 : 0 ≤ market.market_score) (hm1 : market.market_score ≤ 1)
    (ht0 : 0 ≤ effTechScore tech) (ht1 : effTechScore tech ≤ 3)
    (hf0 : 0 ≤ fund.total_score) (hf1 : fund.total_score ≤ 5)
    (hs0 : 0 ≤ effSentScore sent) (hs1 : effSentScore sent ≤ 3)
    (hvalid : fund.is_valid = true) (hgates : symbolGates tech = true) :
    0 ≤ combinedScore market.market_score (effTechScore tech) fund.total_score
        (effSentScore sent) ∧
    combinedScore market.market_score (effTechScore tech) fund.total_score
        (effSentScore sent) ≤ 35/3 ∧
    (promoted alert_threshold market fund tech sent = true ↔
      alert_threshold ≤ combinedScore market.market_score (effTechScore tech)
        fund.total_score (effSentScore sent)) := by
  have hm0' : (0 : ℚ) ≤ (market.market_score : ℚ) := by exact_mod_cast hm0
  have hm1' : (market.market_score : ℚ) ≤ 1 := by exact_mod_cast hm1
  refine ⟨?_, ?_, ?_⟩
  · unfold combinedScore
    linarith
  · unfold combinedScore
    linarith
  · unfold promoted
    rw [hvalid, hgates]
    simp

/-- Witness for the amended C1 at a symbol with no technical and no
sentiment data (both effective sub-scores default to 1.5). -/
theorem C1_combined_score_range_and_promotion_witness :
    0 ≤ combinedScore 1 (effTechScore none) 5 (effSentScore none) ∧
    combinedScore 1 (effTechScore none) 5 (effSentScore none) ≤ 35/3 ∧
    (promoted alert_threshold { market_score := 1 } { symbol := "A", total_score := 5 }
        none none = true ↔
      alert_threshold ≤ combinedScore 1 (effTechScore none) 5 (effSentScore none)) :=
  C1_combined_score_range_and_promotion { market_score := 1 }
    { symbol := "A", total_score := 5 } none none
    (by decide) (by decide) (by norm_num [effTechScore]) (by norm_num [effTechScore])
    (by norm_num) (by norm_num) (by norm_num [effSentScore]) (by norm_num [effSentScore])
    rfl rfl

/-! ## Claim C2: the confidence computation always raises AttributeError -/

/-- On objects built from the analyzer dataclasses, `_calculate_confidence`
always dereferences a missing attribute: `sent.avg_confidence` when a valid
sentiment result is present (main.py line 337), otherwise
`market.high_volume_count` (line 354). -/
lemma getattr_market_is_valid (m : MarketContext) :
    getattr m.toObj "is_valid" = Except.ok (.pyBool m.is_valid) := rfl

lemma getattr_market_high_volume_count (m : MarketContext) :
    getattr m.toObj "high_volume_count" =
      Except.error "AttributeError: high_volume_count" := rfl

lemma getattr_fund_is_valid (f : FundamentalScore) :
    getattr f.toObj "is_valid" = Except.ok (.pyBool f.is_valid) := rfl

lemma getattr_tech_is_valid (t : TechnicalScore) :
    getattr t.toObj "is_valid" = Except.ok (.pyBool t.is_valid) := rfl

lemma getattr_tech_ma50_distance (t : TechnicalScore) :
    getattr t.toObj "ma50_distance" = Except.ok (.pyNum t.ma50_distance) := rfl

lemma getattr_tech_rsi (t : TechnicalScore) :
    getattr t.toObj "rsi" = Except.ok (pyOptNum t.rsi) := rfl

lemma getattr_sent_is_valid (s : SentimentScore) :
    getattr s.toObj "is_valid" = Except.ok (.pyBool s.is_valid) := rfl

lemma getattr_sent_avg_confidence (s : SentimentScore) :
    getattr s.toObj "avg_confidence" =
      Except.error "AttributeError: avg_confidence" := rfl

lemma getattr_sent_articles_analyzed (s : SentimentScore) :
    getattr s.toObj "articles_analyzed" =
      Except.ok (.pyNum s.articles_analyzed) := rfl

lemma calculate_confidence_attribute_error (m : MarketContext) (f : FundamentalScore)
    (t : Option TechnicalScore) (s : Option SentimentScore) :
    calculate_confidence m.toObj f.toObj (t.map TechnicalScore.toObj)
      (s.map SentimentScore.toObj) = Except.error (confAttrError s) := by
  cases s with
  | some ss =>
    cases hsv : ss.is_valid with
    | true =>
      cases t with
      | none =>
        simp [calculate_confidence, exBind, getattr_market_is_valid,
          getattr_fund_is_valid, getattr_sent_is_valid, getattr_sent_avg_confidence,
          PyVal.truthy, hsv, confAttrError]
      | some tt =>
        simp [calculate_confidence, exBind, getattr_market_is_valid,
          getattr_fund_is_valid, getattr_tech_is_valid, getattr_sent_is_valid,
          getattr_sent_avg_confidence, PyVal.truthy, hsv, confAttrError]
    | false =>
      cases t with
      | none =>
        simp [calculate_confidence, exBind, getattr_market_is_valid,
          getattr_fund_is_valid, getattr_sent_is_valid, getattr_sent_articles_analyzed,
          getattr_market_high_volume_count, PyVal.truthy, PyVal.asNum, hsv, confAttrError]
      | some tt =>
        cases htv : tt.is_valid with
        | false =>
          simp [calculate_confidence, exBind, getattr_market_is_valid,
            getattr_fund_is_valid, getattr_tech_is_valid, getattr_sent_is_valid,
            getattr_sent_articles_analyzed, getattr_market_high_volume_count,
            PyVal.truthy, PyVal.asNum, hsv, htv, confAttrError]
        | true =>
          cases hr : tt.rsi with
          | none =>
            simp [calculate_confidence, exBind, getattr_market_is_valid,
              getattr_fund_is_valid, getattr_tech_is_valid, getattr_tech_ma50_distance,
              getattr_tech_rsi, getattr_sent_is_valid, getattr_sent_articles_analyzed,
              getattr_market_high_volume_count, PyVal.truthy, PyVal.asNum, pyOptNum,
              hsv, htv, hr, confAttrError]
          | some q =>
            by_cases hq : q = 0 <;>
              simp [calculate_confidence, exBind, getattr_market_is_valid,
                getattr_fund_is_valid, getattr_tech_is_valid, getattr_tech_ma50_distance,
                getattr_tech_rsi, getattr_sent_is_valid, getattr_sent_articles_analyzed,
                getattr_market_high_volume_count, PyVal.truthy, PyVal.asNum, pyOptNum,
                hsv, htv, hr, hq, confAttrError]
  | none =>
    cases t with
    | none =>
      simp [calculate_confidence, exBind, getattr_market_is_valid,
        getattr_fund_is_valid, getattr_market_high_volume_count,
        PyVal.truthy, PyVal.asNum, confAttrError]
    | some tt =>
      cases htv : tt.is_valid with
      | false =>
        simp [calculate_confidence, exBind, getattr_market_is_valid,
          getattr_fund_is_valid, getattr_tech_is_valid,
          getattr_market_high_volume_count, PyVal.truthy, PyVal.asNum, htv, confAttrError]
      | true =>
        cases hr : tt.rsi with
        | none =>
          simp [calculate_confidence, exBind, getattr_market_is_valid,
            getattr_fund_is_valid, getattr_tech_is_valid, getattr_tech_ma50_distance,
            getattr_tech_rsi, getattr_market_high_volume_count,
            PyVal.truthy, PyVal.asNum, pyOptNum, htv, hr, confAttrError]
        | some q =>
          by_cases hq : q = 0 <;>
            simp [calculate_confidence, exBind, getattr_market_is_valid,
              getattr_fund_is_valid, getattr_tech_is_valid, getattr_tech_ma50_distance,
              getattr_tech_rsi, getattr_market_high_volume_count,
              PyVal.truthy, PyVal.asNum, pyOptNum, htv, hr, hq, confAttrError]

lemma confAttrError_cases (s : Option SentimentScore) :
    confAttrError s = "AttributeError: avg_confidence" ∨
    confAttrError s = "AttributeError: high_volume_count" := by
  cases s with
  | none => right; rfl
  | some ss => cases hsv : ss.is_valid <;> simp [confAttrError, hsv]

/-- When a symbol qualifies, the loop body raises the attribute error of
`_calculate_confidence` instead of producing a `SignalRecord`. -/
lemma processSymbol_of_qualifies (threshold : ℚ) (quote : String → Option ℚ)
    (market : MarketContext) (techs : List TechnicalScore) (sents : List SentimentScore)
    (fund : FundamentalScore)
    (hq : qualifies threshold market techs sents fund = true) :
    processSymbol threshold quote market techs sents fund =
      Except.error (confAttrError (sentLookup sents fund.symbol)) := by
  simp only [qualifies, promoted, Bool.and_eq_true, decide_eq_true_eq] at hq
  obtain ⟨⟨hfv, hgate⟩, hsc⟩ := hq
  simp only [symbolGates, Bool.and_eq_true, Bool.not_eq_true'] at hgate
  obtain ⟨hA, hB⟩ := hgate
  have hconf := calculate_confidence_attribute_error market fund
    (techLookup techs fund.symbol) (sentLookup sents fund.symbol)
  simp only [processSymbol, hfv, hA, hB, Bool.not_true, if_pos hsc, hconf]
  rfl

/-- When a symbol does not qualify, the loop body skips it. -/
lemma processSymbol_of_not_qualifies (threshold : ℚ) (quote : String → Option ℚ)
    (market : MarketContext) (techs : List TechnicalScore) (sents : List SentimentScore)
    (fund : FundamentalScore)
    (hq : qualifies threshold market techs sents fund = false) :
    processSymbol threshold quote market techs sents fund = Except.ok none := by
  cases hfv : fund.is_valid with
  | false => simp [processSymbol, hfv]
  | true =>
    cases hA : (match techLookup techs fund.symbol with
                | some t => t.is_valid && !t.above_ma50
                | none => false) with
    | true => simp [processSymbol, hfv, hA]
    | false =>
      cases hB : (match techLookup techs fund.symbol with
                  | some t => t.is_valid && decide (t.rsi_signal = "OVERBOUGHT")
                  | none => false) with
      | true => simp [processSymbol, hfv, hA, hB]
      | false =>
        have hsc : ¬ threshold ≤ combinedScore market.market_score
            (effTechScore (techLookup techs fund.symbol)) fund.total_score
            (effSentScore (sentLookup sents fund.symbol)) := by
          simp only [qualifies, promoted, symbolGates, hfv, hA, hB, Bool.not_false,
            Bool.and_self, Bool.true_and, decide_eq_false_iff_not] at hq
          exact hq
        simp [processSymbol, hfv, hA, hB, hsc]

/-- The loop never appends a signal: whatever it returns or raises, the
saved list is the accumulator it started from. -/
lemma generateLoop_saved (threshold : ℚ) (quote : String → Option ℚ)
    (market : MarketContext) (techs : List TechnicalScore) (sents : List SentimentScore) :
    ∀ (funds : List FundamentalScore) (acc : List SignalRecord),
      savedSignals (generateLoop threshold quote market techs sents funds acc) = acc := by
  intro funds
  induction funds with
  | nil => intro acc; rfl
  | cons g rest ih =>
    intro acc
    cases hg : qualifies threshold market techs sents g with
    | true =>
      have hp := processSymbol_of_qualifies threshold quote market techs sents g hg
      simp [generateLoop, hp, savedSignals]
    | false =>
      have hp := processSymbol_of_not_qualifies threshold quote market techs sents g hg
      simp [generateLoop, hp, ih]

/-- If some symbol in the list qualifies, the loop raises the attribute
error before appending anything. -/
lemma generateLoop_raises (threshold : ℚ) (quote : String → Option ℚ)
    (market : MarketContext) (techs : List TechnicalScore) (sents : List SentimentScore) :
    ∀ (funds : List FundamentalScore) (acc : List SignalRecord) (f : FundamentalScore),
      f ∈ funds → qualifies threshold market techs sents f = true →
      ∃ e, generateLoop threshold quote market techs sents funds acc = .raised e acc ∧
        (e = "AttributeError: avg_confidence" ∨ e = "AttributeError: high_volume_count") := by
  intro funds
  induction funds with
  | nil => intro acc f hf; exact absurd hf (List.not_mem_nil f)
  | cons g rest ih =>
    intro acc f hf hq
    cases hg : qualifies threshold market techs sents g with
    | true =>
      have hp := processSymbol_of_qualifies threshold quote market techs sents g hg
      exact ⟨confAttrError (sentLookup sents g.symbol), by simp [generateLoop, hp],
        confAttrError_cases _⟩
    | false =>
      have hp := processSymbol_of_not_qualifies threshold quote market techs sents g hg
      have hfr : f ∈ rest := by
        rcases List.mem_cons.mp hf with h | h
        · subst h; rw [hq] at hg; exact absurd hg (by simp)
        · exact h
      rcases ih acc f hfr hq with ⟨e, he, hor⟩
      exact ⟨e, by simp [generateLoop, hp, he], hor⟩

/-- Claim C2: in every run in which some symbol passes all gates with a
combined score at or above the alert threshold, the confidence computation
dereferences attributes that the analyzer dataclasses do not define
(`sent.avg_confidence` when a valid sentiment result is present, else
`market.high_volume_count`), so an `AttributeError` is raised before any
`SignalRecord` is constructed or saved, the orchestrator-level handler
catches it and `run_full_analysis` returns `-1`; consequently no signal is
ever emitted by the pipeline as composed. -/
theorem C2_confidence_attribute_error (threshold : ℚ) (quote : String → Option ℚ)
    (market : MarketContext) (funds : List FundamentalScore)
    (techs : List TechnicalScore) (sents : List SentimentScore)
    (f : FundamentalScore) (hmem : f ∈ funds)
    (hm : 0 ≤ market.market_score)
    (hq : qualifies threshold market techs sents f = true) :
    (∀ (m' : MarketContext) (f' : FundamentalScore) (t' : Option TechnicalScore)
        (s' : Option SentimentScore),
      calculate_confidence m'.toObj f'.toObj (t'.map TechnicalScore.toObj)
        (s'.map SentimentScore.toObj) = Except.error (confAttrError s')) ∧
    (∃ e, generate_signals threshold quote market funds techs sents = .raised e [] ∧
      (e = "AttributeError: avg_confidence" ∨ e = "AttributeError: high_volume_count")) ∧
    run_full_analysis threshold quote market funds techs sents = -1 ∧
    savedSignals (generate_signals threshold quote market funds techs sents) = [] := by
  have hnotneg : ¬ market.market_score < 0 := not_lt.mpr hm
  have hgen : generate_signals threshold quote market funds techs sents =
      generateLoop threshold quote market techs sents funds [] := by
    simp [generate_signals, hnotneg]
  rcases generateLoop_raises threshold quote market techs sents funds [] f hmem hq with
    ⟨e, he, hor⟩
  refine ⟨fun m' f' t' s' => calculate_confidence_attribute_error m' f' t' s',
    ⟨e, by rw [hgen]; exact he, hor⟩, ?_, ?_⟩
  · simp [run_full_analysis, hgen, he]
  · rw [hgen, he]; rfl

/-- Witness for C2: a single valid symbol with a perfect fundamental score
and no technical or sentiment data qualifies (score 7.92 ≥ 7.5) and the
run returns -1. -/
theorem C2_confidence_attribute_error_witness :
    run_full_analysis (15/2) (fun _ => none) { market_score := 0 }
      [{ symbol := "A", total_score := 5 }] [] [] = -1 :=
  (C2_confidence_attribute_error (15/2) (fun _ => none) { market_score := 0 }
    [{ symbol := "A", total_score := 5 }] [] []
    { symbol := "A", total_score := 5 } (List.mem_singleton.mpr rfl) (by decide)
    (by norm_num [qualifies, promoted, symbolGates, techLookup, sentLookup,
      effTechScore, effSentScore, combinedScore])).2.2.1

/-! ## Claim C3: market gate and technical filter -/

lemma analyze_length_of_valid (symbol : String) (closes : List ℚ)
    (h : (TechnicalAnalyzer.analyze symbol closes).is_valid = true) :
    TechnicalAnalyzer.ma_period ≤ closes.length := by
  by_cases hlen : closes.length < TechnicalAnalyzer.ma_period
  · simp [TechnicalAnalyzer.analyze, hlen] at h
  · omega

/-- `analyze` sets `above_ma50` from `current_price > ma50`; a price below
the 50-day moving average therefore yields `above_ma50 = false` (as does a
zero moving average, falsy in Python). -/
lemma analyze_above_ma50_of_lt (symbol : String) (closes : List ℚ)
    (hlen : TechnicalAnalyzer.ma_period ≤ closes.length)
    (hlt : closes.headI <
      (closes.take TechnicalAnalyzer.ma_period).sum / (TechnicalAnalyzer.ma_period : ℚ)) :
    (TechnicalAnalyzer.analyze symbol closes).above_ma50 = false := by
  have hnl : ¬ closes.length < TechnicalAnalyzer.ma_period := not_lt.mpr hlen
  simp only [TechnicalAnalyzer.analyze, hnl, if_false,
    TechnicalAnalyzer.calculate_ma, TechnicalAnalyzer.optTruthy]
  by_cases hz : (closes.take TechnicalAnalyzer.ma_period).sum / (TechnicalAnalyzer.ma_period : ℚ) = 0
  · simp [hz]
  · simp [hz, Option.getD]
    linarith

/-- Claim C3: if the market-context score is negative the signal list is
empty and nothing is saved; and a symbol whose technical result is valid is
never promoted to a `SignalRecord` when its price is below its 50-day
moving average or its RSI signal is OVERBOUGHT — the loop body skips it and
its symbol never appears among the saved signals. -/
theorem C3_market_gate_and_technical_filter (threshold : ℚ)
    (quote : String → Option ℚ) (market : MarketContext)
    (funds : List FundamentalScore) (techs : List TechnicalScore)
    (sents : List SentimentScore) (f : FundamentalScore) (closes : List ℚ)
    (t : TechnicalScore)
    (hlook : techLookup techs f.symbol = some t)
    (ht : t = TechnicalAnalyzer.analyze f.symbol closes)
    (hvalid : t.is_valid = true)
    (hcond : closes.headI <
        (closes.take TechnicalAnalyzer.ma_period).sum / (TechnicalAnalyzer.ma_period : ℚ) ∨
      t.rsi_signal = "OVERBOUGHT") :
    (market.market_score < 0 →
      generate_signals threshold quote market funds techs sents = .ok [] ∧
      savedSignals (generate_signals threshold quote market funds techs sents) = []) ∧
    processSymbol threshold quote market techs sents f = Except.ok none ∧
    f.symbol ∉ (savedSignals
      (generate_signals threshold quote market funds techs sents)).map SignalRecord.symbol := by
  have hgate : symbolGates (techLookup techs f.symbol) = false := by
    rw [hlook]
    rcases hcond with hlt | hrs
    · have hab : t.above_ma50 = false := by
        rw [ht]
        exact analyze_above_ma50_of_lt f.symbol closes
          (analyze_length_of_valid f.symbol closes (ht ▸ hvalid)) hlt
      simp [symbolGates, hvalid, hab]
    · simp [symbolGates, hvalid, hrs]
  have hq : qualifies threshold market techs sents f = false := by
    simp [qualifies, promoted, hgate]
  have hsaved : savedSignals (generate_signals threshold quote market funds techs sents) = [] := by
    by_cases hm : market.market_score < 0
    · simp [generate_signals, hm, savedSignals]
    · simp [generate_signals, hm, generateLoop_saved]
  refine ⟨fun hm => ⟨by simp [generate_signals, hm], hsaved ▸ rfl⟩,
    processSymbol_of_not_qualifies threshold quote market techs sents f hq, ?_⟩
  rw [hsaved]
  simp

/-- Witness for C3: a 50-day flat history at price 10 with the last close
at 1 (below the moving average 9.82); the symbol is skipped. -/
theorem C3_market_gate_and_technical_filter_witness :
    processSymbol (15/2) (fun _ => none) { market_score := -1 }
      [TechnicalAnalyzer.analyze "A" (1 :: List.replicate 49 10)] []
      { symbol := "A", total_score := 5 } = Except.ok none :=
  (C3_market_gate_and_technical_filter (15/2) (fun _ => none) { market_score := -1 }
    [] [TechnicalAnalyzer.analyze "A" (1 :: List.replicate 49 10)] []
    { symbol := "A", total_score := 5 } (1 :: List.replicate 49 10)
    (TechnicalAnalyzer.analyze "A" (1 :: List.replicate 49 10))
    (by simp [techLookup, TechnicalAnalyzer.analyze, TechnicalAnalyzer.ma_period])
    rfl
    (by simp [TechnicalAnalyzer.analyze, TechnicalAnalyzer.ma_period])
    (by
      left
      simp [TechnicalAnalyzer.ma_period, List.headI]
      norm_num)).2.1

/-! ## Claim C8: RSI on monotone price series -/

lemma round1_zero : round1 0 = 0 := by
  norm_num [round1, roundHalfEven]

namespace TechnicalAnalyzer

lemma diffs_pos (cs : List ℚ) (h : List.Chain' (· < ·) cs) :
    ∀ d ∈ diffs cs, 0 < d := by
  induction cs with
  | nil => intro d hd; simp [diffs] at hd
  | cons a t ih =>
    cases t with
    | nil => intro d hd; simp [diffs] at hd
    | cons b r =>
      intro d hd
      rw [List.chain'_cons] at h
      have : diffs (a :: b :: r) = (b - a) :: diffs (b :: r) := rfl
      rw [this] at hd
      rcases List.mem_cons.mp hd with h1 | h1
      · subst h1; linarith [h.1]
      · exact ih h.2 d h1

lemma diffs_neg (cs : List ℚ) (h : List.Chain' (· > ·) cs) :
    ∀ d ∈ diffs cs, d < 0 := by
  induction cs with
  | nil => intro d hd; simp [diffs] at hd
  | cons a t ih =>
    cases t with
    | nil => intro d hd; simp [diffs] at hd
    | cons b r =>
      intro d hd
      rw [List.chain'_cons] at h
      have : diffs (a :: b :: r) = (b - a) :: diffs (b :: r) := rfl
      rw [this] at hd
      rcases List.mem_cons.mp hd with h1 | h1
      · subst h1; have := h.1; simp only [gt_iff_lt] at this; linarith
      · exact ih h.2 d h1

lemma diffs_length (cs : List ℚ) : (diffs cs).length = cs.length - 1 := by
  cases cs with
  | nil => rfl
  | cons a t => simp [diffs]

lemma wilderSmooth_snd_zero (rest : List (ℚ × ℚ)) (hz : ∀ p ∈ rest, p.2 = 0) :
    ∀ g : ℚ, (wilderSmooth (g, 0) rest).2 = 0 := by
  induction rest with
  | nil => intro g; rfl
  | cons p r ih =>
    intro g
    simp only [wilderSmooth, List.foldl_cons]
    rw [show ((0 : ℚ) * ((rsi_period - 1 : ℕ) : ℚ) + p.2) / ((rsi_period : ℕ) : ℚ) = 0 from by
      rw [hz p (List.mem_cons_self p r)]; norm_num]
    exact ih (fun q hq => hz q (List.mem_cons_of_mem p hq)) _

lemma wilderSmooth_fst_zero (rest : List (ℚ × ℚ)) (hz : ∀ p ∈ rest, p.1 = 0) :
    ∀ l : ℚ, (wilderSmooth (0, l) rest).1 = 0 := by
  induction rest with
  | nil => intro l; rfl
  | cons p r ih =>
    intro l
    simp only [wilderSmooth, List.foldl_cons]
    rw [show ((0 : ℚ) * ((rsi_period - 1 : ℕ) : ℚ) + p.1) / ((rsi_period : ℕ) : ℚ) = 0 from by
      rw [hz p (List.mem_cons_self p r)]; norm_num]
    exact ih (fun q hq => hz q (List.mem_cons_of_mem p hq)) _

lemma wilderSmooth_snd_pos (rest : List (ℚ × ℚ)) (hnn : ∀ p ∈ rest, 0 ≤ p.2) :
    ∀ g l : ℚ, 0 < l → 0 < (wilderSmooth (g, l) rest).2 := by
  induction rest with
  | nil => intro g l hl; exact hl
  | cons p r ih =>
    intro g l hl
    have hp : 0 ≤ p.2 := hnn p (List.mem_cons_self p r)
    have hcast : ((rsi_period - 1 : ℕ) : ℚ) = 13 := by norm_num [rsi_period]
    have hnum : 0 < l * ((rsi_period - 1 : ℕ) : ℚ) + p.2 := by
      rw [hcast]; linarith
    have hden : (0 : ℚ) < ((rsi_period : ℕ) : ℚ) := by norm_num [rsi_period]
    simp only [wilderSmooth, List.foldl_cons]
    exact ih (fun q hq => hnn q (List.mem_cons_of_mem p hq)) _ _ (div_pos hnum hden)

/-- Claim C8: the RSI(14) computation seeds with the simple average
gain/loss over the first 14 periods, smooths with
`avg = (avg*13 + new)/14`, and returns 100 when the smoothed average loss
is 0; consequently, for every strictly increasing chronological price
series of length at least 15 (handed to `_calculate_rsi` most-recent-first,
i.e. reversed) the RSI is 100, and for every strictly decreasing one it is
0. -/
theorem C8_rsi_monotone (cs : List ℚ) (hlen : 15 ≤ cs.length) :
    (List.Chain' (· < ·) cs → calculate_rsi cs.reverse = some 100) ∧
    (List.Chain' (· > ·) cs → calculate_rsi cs.reverse = some 0) := by
  have hrev : cs.reverse.reverse = cs := List.reverse_reverse cs
  have h1 : ¬ cs.reverse.length < rsi_period + 1 := by
    simp only [List.length_reverse, rsi_period]
    omega
  have h2 : ∀ g : ℚ → ℚ, ¬ ((diffs cs).map g).length < rsi_period := by
    intro g
    rw [List.length_map, diffs_length]
    simp only [rsi_period]
    omega
  constructor
  · intro hchain
    have hdpos := diffs_pos cs hchain
    have hloss0 : ∀ x ∈ (diffs cs).map (fun c => if 0 < c then (0 : ℚ) else -c), x = 0 := by
      intro x hx
      rcases List.mem_map.mp hx with ⟨c, hc, rfl⟩
      simp [hdpos c hc]
    simp only [calculate_rsi, h1, if_false, hrev]
    rw [if_neg (h2 _)]
    rw [show ((((diffs cs).map (fun c => if 0 < c then (0 : ℚ) else -c)).take rsi_period).sum /
        ((rsi_period : ℕ) : ℚ)) = 0 from by
      rw [List.sum_eq_zero (fun x hx => hloss0 x (List.take_subset _ _ hx))]
      norm_num]
    rw [if_pos (wilderSmooth_snd_zero _ (fun p hp => by
      rcases p with ⟨a, b⟩
      exact hloss0 b (List.drop_subset _ _ (List.of_mem_zip hp).2)) _)]
  · intro hchain
    have hdneg := diffs_neg cs hchain
    have hgain0 : ∀ x ∈ (diffs cs).map (fun c => if 0 < c then c else (0 : ℚ)), x = 0 := by
      intro x hx
      rcases List.mem_map.mp hx with ⟨c, hc, rfl⟩
      have := hdneg c hc
      simp [not_lt.mpr (le_of_lt this)]
    have hlosspos : ∀ x ∈ (diffs cs).map (fun c => if 0 < c then (0 : ℚ) else -c), 0 < x := by
      intro x hx
      rcases List.mem_map.mp hx with ⟨c, hc, rfl⟩
      have := hdneg c hc
      simp [not_lt.mpr (le_of_lt this)]
      linarith
    simp only [calculate_rsi, h1, if_false, hrev]
    rw [if_neg (h2 _)]
    rw [show ((((diffs cs).map (fun c => if 0 < c then c else (0 : ℚ))).take rsi_period).sum /
        ((rsi_period : ℕ) : ℚ)) = 0 from by
      rw [List.sum_eq_zero (fun x hx => hgain0 x (List.take_subset _ _ hx))]
      norm_num]
    have hseed2 : 0 < (((diffs cs).map (fun c => if 0 < c then (0 : ℚ) else -c)).take
        rsi_period).sum / ((rsi_period : ℕ) : ℚ) := by
      apply div_pos
      · apply List.sum_pos
        · intro x hx
          exact hlosspos x (List.take_subset _ _ hx)
        · have hl : (((diffs cs).map (fun c => if 0 < c then (0 : ℚ) else -c)).take
              rsi_period).length = rsi_period := by
            rw [List.length_take, List.length_map, diffs_length]
            simp only [rsi_period]
            omega
          intro hnil
          rw [hnil] at hl
          simp [rsi_period] at hl
      · norm_num [rsi_period]
    have hsndpos := wilderSmooth_snd_pos
      ((((diffs cs).map (fun c => if 0 < c then c else (0 : ℚ))).drop rsi_period).zip
        (((diffs cs).map (fun c => if 0 < c then (0 : ℚ) else -c)).drop rsi_period))
      (fun p hp => by
        rcases p with ⟨a, b⟩
        exact le_of_lt (hlosspos b (List.drop_subset _ _ (List.of_mem_zip hp).2)))
      0 _ hseed2
    have hfst := wilderSmooth_fst_zero
      ((((diffs cs).map (fun c => if 0 < c then c else (0 : ℚ))).drop rsi_period).zip
        (((diffs cs).map (fun c => if 0 < c then (0 : ℚ) else -c)).drop rsi_period))
      (fun p hp => by
        rcases p with ⟨a, b⟩
        exact hgain0 a (List.drop_subset _ _ (List.of_mem_zip hp).1))
      ((((diffs cs).map (fun c => if 0 < c then (0 : ℚ) else -c)).take rsi_period).sum /
        ((rsi_period : ℕ) : ℚ))
    rw [if_neg (ne_of_gt hsndpos)]
    rw [hfst, zero_div]
    norm_num [round1_zero]

/-- Witness for C8 on the 15-day series 1..15, rising and falling. -/
theorem C8_rsi_monotone_witness :
    calculate_rsi ([1, 2, 3, 4, 5, 6, 7, 8, 9, 10, 11, 12, 13, 14, 15] : List ℚ).reverse =
      some 100 ∧
    calculate_rsi ([15, 14, 13, 12, 11, 10, 9, 8, 7, 6, 5, 4, 3, 2, 1] : List ℚ).reverse =
      some 0 :=
  ⟨(C8_rsi_monotone [1, 2, 3, 4, 5, 6, 7, 8, 9, 10, 11, 12, 13, 14, 15] (by norm_num)).1
      (by norm_num [List.chain'_cons, List.chain'_singleton]),
   (C8_rsi_monotone [15, 14, 13, 12, 11, 10, 9, 8, 7, 6, 5, 4, 3, 2, 1] (by norm_num)).2
      (by norm_num [List.chain'_cons, List.chain'_singleton])⟩

end TechnicalAnalyzer

/-! ## Claim C4: circuit breaker state machine -/

namespace CircuitBreaker

/-- Invariant of reachable breaker states: the state string is one of the
three legal values; away from "closed" the failure count has reached the
threshold and a failure timestamp is recorded. -/
lemma reachable_invariant (th : ℕ) (rt : ℚ) (hth : 1 ≤ th) (s : State)
    (h : Reachable th rt s) :
    (s.state = "closed" ∨ s.state = "open" ∨ s.state = "half-open") ∧
    ((s.state = "open" ∨ s.state = "half-open") →
      th ≤ s.failures ∧ s.last_failure.isSome = true) := by
  induction h with
  | init => refine ⟨Or.inl rfl, fun hc => ?_⟩; rcases hc with hc | hc <;> exact absurd hc (by decide)
  | step s now success hs ih =>
    by_cases hopen : s.state = "open"
    · by_cases hres : should_attempt_reset rt s now = true
      · cases success with
        | true => simp [stepState, call, checkPhase, hopen, hres, on_success]
        | false =>
          have hf : th ≤ s.failures := (ih.2 (Or.inl hopen)).1
          simp [stepState, call, checkPhase, hopen, hres, on_failure]
          omega
      · have hres' : should_attempt_reset rt s now = false := by
          revert hres; cases should_attempt_reset rt s now <;> simp
        simpa [stepState, call, checkPhase, hopen, hres'] using ih
    · cases success with
      | true => simp [stepState, call, checkPhase, hopen, on_success]
      | false =>
        by_cases hth' : th ≤ s.failures + 1
        · simp [stepState, call, checkPhase, hopen, on_failure, hth']
        · rcases ih.1 with hcl | hop | hho
          · simp [stepState, call, checkPhase, hopen, on_failure, hth', hcl]
          · exact absurd hop hopen
          · have := (ih.2 (Or.inr hho)).1
            omega

/-- From a closed state, consecutive failures accumulate and the circuit
opens exactly when the threshold is reached. -/
lemma failStreak_opens (th : ℕ) (rt : ℚ) :
    ∀ (times : List ℚ) (s : State), s.state = "closed" →
      s.failures + times.length = th → 1 ≤ times.length →
      (failStreak th rt s times).state = "open" ∧
      (failStreak th rt s times).failures = th := by
  intro times
  induction times with
  | nil => intro s _ _ hlen; simp at hlen
  | cons t rest ih =>
    intro s hcl hf _
    have hnotopen : ¬ s.state = "open" := by rw [hcl]; simp
    have hstep : failStreak th rt s (t :: rest) =
        failStreak th rt (on_failure th s t) rest := by
      simp [failStreak, stepState, call, checkPhase, hnotopen]
    cases rest with
    | nil =>
      have hth : th ≤ s.failures + 1 := by simp at hf; omega
      have heq : s.failures + 1 = th := by simp at hf; omega
      rw [hstep]
      simp [failStreak, on_failure, hth, hcl, heq]
    | cons t2 rest2 =>
      have hlt : ¬ th ≤ s.failures + 1 := by simp at hf; omega
      rw [hstep]
      have := ih (on_failure th s t)
        (by simp [on_failure, hlt, hcl]) (by simp [on_failure]; simp at hf; omega)
        (by simp)
      exact this

/-- Claim C4: the circuit breaker obeys exactly the specified state
machine — after `threshold` consecutive failures from a fresh closed state
it is OPEN; while OPEN with elapsed time since the last failure below the
recovery timeout every call fails fast with the distinct circuit-open
error without invoking the wrapped function; once the recovery timeout has
elapsed the entry check transitions to HALF-OPEN and lets exactly one
trial call through; a success from CLOSED or HALF-OPEN resets the failure
counter to 0 and closes the circuit; a failure during HALF-OPEN reopens it
with a refreshed failure timestamp; and every state change along any call
is one of closed→open, open→half-open, half-open→closed, half-open→open. -/
theorem C4_circuit_breaker_state_machine (th : ℕ) (rt : ℚ) (hth : 1 ≤ th) :
    (∀ (times : List ℚ) (s : State), s.state = "closed" → s.failures = 0 →
      times.length = th → (failStreak th rt s times).state = "open" ∧
        (failStreak th rt s times).failures = th) ∧
    (∀ (s : State) (now lf : ℚ), s.state = "open" → s.last_failure = some lf →
      now - lf < rt → ∀ success,
        call th rt s now success = .circuitOpenError ∧
        stepState th rt s now success = s) ∧
    (∀ (s : State) (now lf : ℚ), s.state = "open" → s.last_failure = some lf →
      rt < now - lf →
        checkPhase rt s now = some { s with state := "half-open" }) ∧
    (∀ (s : State) (now : ℚ), s.state = "closed" ∨ s.state = "half-open" →
      call th rt s now true = .ran (on_success s) ∧
      (on_success s).failures = 0 ∧ (on_success s).state = "closed") ∧
    (∀ (s : State) (now : ℚ), Reachable th rt s → s.state = "half-open" →
      stepState th rt s now false =
        { failures := s.failures + 1, last_failure := some now, state := "open" }) ∧
    (∀ (s : State) (now : ℚ) (success : Bool), Reachable th rt s →
      List.Chain' allowedEdge (callTrace th rt s now success)) := by
  refine ⟨?_, ?_, ?_, ?_, ?_, ?_⟩
  · intro times s hcl hf hlen
    exact failStreak_opens th rt times s hcl (by omega) (by omega)
  · intro s now lf hopen hlf hlt success
    have hres : should_attempt_reset rt s now = false := by
      simp [should_attempt_reset, hlf]
      linarith
    constructor <;> simp [call, stepState, checkPhase, hopen, hres]
  · intro s now lf hopen hlf hgt
    have hres : should_attempt_reset rt s now = true := by
      simp [should_attempt_reset, hlf]
      linarith
    simp [checkPhase, hopen, hres]
  · intro s now hso
    have hnotopen : ¬ s.state = "open" := by
      rcases hso with h | h <;> rw [h] <;> simp
    refine ⟨by simp [call, checkPhase, hnotopen], rfl, rfl⟩
  · intro s now hreach hho
    have hf : th ≤ s.failures := ((reachable_invariant th rt hth s hreach).2 (Or.inr hho)).1
    have hnotopen : ¬ s.state = "open" := by rw [hho]; simp
    simp [stepState, call, checkPhase, hnotopen, on_failure]
    omega
  · intro s now success hreach
    have hinv := reachable_invariant th rt hth s hreach
    by_cases hopen : s.state = "open"
    · by_cases hres : should_attempt_reset rt s now = true
      · have hf : th ≤ s.failures := (hinv.2 (Or.inl hopen)).1
        cases success with
        | true =>
          simp [callTrace, checkPhase, hopen, hres, on_success, allowedEdge]
        | false =>
          simp [callTrace, checkPhase, hopen, hres, on_failure, allowedEdge]
          omega
      · have hres' : should_attempt_reset rt s now = false := by
          revert hres; cases should_attempt_reset rt s now <;> simp
        simp [callTrace, checkPhase, hopen, hres']
    · cases success with
      | true =>
        rcases hinv.1 with hcl | hop | hho
        · simp [callTrace, checkPhase, hopen, on_success, allowedEdge, hcl]
        · exact absurd hop hopen
        · simp [callTrace, checkPhase, hopen, on_success, allowedEdge, hho]
      | false =>
        by_cases hth' : th ≤ s.failures + 1
        · rcases hinv.1 with hcl | hop | hho
          · simp [callTrace, checkPhase, hopen, on_failure, allowedEdge, hth', hcl]
          · exact absurd hop hopen
          · simp [callTrace, checkPhase, hopen, on_failure, allowedEdge, hth', hho]
        · rcases hinv.1 with hcl | hop | hho
          · simp [callTrace, checkPhase, hopen, on_failure, allowedEdge, hth', hcl]
          · exact absurd hop hopen
          · have := (hinv.2 (Or.inr hho)).1
            omega

/-- Witness for C4 with threshold 1 and timeout 60: one failing call at
time 0 opens the circuit. -/
theorem C4_circuit_breaker_state_machine_witness :
    (failStreak 1 60 State.init [0]).state = "open" ∧
    (failStreak 1 60 State.init [0]).failures = 1 :=
  (C4_circuit_breaker_state_machine 1 60 (by omega)).1 [0] State.init rfl rfl rfl

end CircuitBreaker

/-! ## Claim C5: rate limiter sliding window -/

namespace RateLimiter

/-- Claim C5 counterexample: a single batch request costing 9 credits
against the 8-credit cap on an empty window is recorded immediately after
the (skipped) wait, and the rolling 60-second window then holds 9 > 8
credits. -/
theorem C5_counterexample :
    enforce_rate_limit 8 8 [] 0 9 = ([(0, 9)], 0) ∧
    windowCredits (enforce_rate_limit 8 8 [] 0 9).1 0 = 9 ∧
    ¬ windowCredits (enforce_rate_limit 8 8 [] 0 9).1 0 ≤ 8 := by
  have h1 : enforce_rate_limit 8 8 [] 0 9 = ([(0, 9)], 0) := rfl
  have h2 : windowCredits (enforce_rate_limit 8 8 [] 0 9).1 0 = 9 := by
    rw [h1]
    simp only [windowCredits, List.filter]
    norm_num
  exact ⟨h1, h2, by omega⟩

/-- Claim C5 (amended): before issuing a call the limiter prunes window
entries older than 60 seconds; when the projected total would exceed the
per-minute cap and the window is non-empty it sleeps once, until the
oldest window entry ages out plus a 2-second margin; it then enforces the
minimum inter-call delay relative to the last recorded entry and records
the call with its credit cost.  The rolling 60-second window total is
guaranteed to stay within the cap only when the pruned window total plus
the requested credits does not exceed it; the single wait does not
re-check the cap, so a batch request costing more than the cap (or
residual window credits) can push the recorded window total above the
cap. -/
theorem C5_rate_limiter_window (cap : ℕ) (min_delay : ℚ) (times : List (ℚ × ℕ))
    (now : ℚ) (credits : ℕ) (htimes : ∀ p ∈ times, p.1 ≤ now) :
    (∀ p ∈ pruneWindow now times, now - p.1 < 60 ∧ p.1 ≤ now) ∧
    ((enforce_rate_limit cap min_delay times now credits).1 =
      (rateWait cap (pruneWindow now times) now credits).1 ++
        [((enforce_rate_limit cap min_delay times now credits).2, credits)]) ∧
    (∀ (t0 : ℚ) (c0 : ℕ) (rest : List (ℚ × ℕ)),
      cap < ((pruneWindow now times).map Prod.snd).sum + credits →
      pruneWindow now times = (t0, c0) :: rest →
      (rateWait cap (pruneWindow now times) now credits).2 = t0 + 62) ∧
    (∀ last : ℚ × ℕ,
      (rateWait cap (pruneWindow now times) now credits).1.getLast? = some last →
      min_delay ≤ (enforce_rate_limit cap min_delay times now credits).2 - last.1) ∧
    (((pruneWindow now times).map Prod.snd).sum + credits ≤ cap →
      windowCredits (enforce_rate_limit cap min_delay times now credits).1
        (enforce_rate_limit cap min_delay times now credits).2 ≤ cap) := by
  refine ⟨?_, rfl, ?_, ?_, ?_⟩
  · intro p hp
    rw [pruneWindow, List.mem_filter] at hp
    exact ⟨by simpa using hp.2, htimes p hp.1⟩
  · intro t0 c0 rest hover heq
    have hmem : (t0, c0) ∈ pruneWindow now times := by rw [heq]; exact List.mem_cons_self _ _
    have hage : now - t0 < 60 := by
      rw [pruneWindow, List.mem_filter] at hmem
      simpa using hmem.2
    have hpos : 0 < 60 - (now - t0) + 2 := by linarith
    rw [heq] at hover ⊢
    have hred : rateWait cap ((t0, c0) :: rest) now credits =
        if cap < (List.map Prod.snd ((t0, c0) :: rest)).sum + credits then
          (if 0 < 60 - (now - t0) + 2 then
            (pruneWindow (now + (60 - (now - t0) + 2)) ((t0, c0) :: rest),
             now + (60 - (now - t0) + 2))
          else ((t0, c0) :: rest, now))
        else ((t0, c0) :: rest, now) := rfl
    rw [hred, if_pos hover, if_pos hpos]
    ring
  · intro last hlast
    have h2 : (enforce_rate_limit cap min_delay times now credits).2 =
        rateMinDelay min_delay (rateWait cap (pruneWindow now times) now credits).1
          (rateWait cap (pruneWindow now times) now credits).2 := rfl
    rw [h2]
    simp only [rateMinDelay, hlast]
    by_cases hlt : (rateWait cap (pruneWindow now times) now credits).2 - last.1 < min_delay
    · rw [if_pos hlt]; ring_nf; linarith
    · rw [if_neg hlt]; linarith
  · intro hle
    have hwait : rateWait cap (pruneWindow now times) now credits =
        (pruneWindow now times, now) := by
      have hd : rateWait cap (pruneWindow now times) now credits =
          if cap < ((pruneWindow now times).map Prod.snd).sum + credits then
            (match pruneWindow now times with
             | [] => (pruneWindow now times, now)
             | (oldest_time, _) :: _ =>
               if 0 < 60 - (now - oldest_time) + 2 then
                 (pruneWindow (now + (60 - (now - oldest_time) + 2)) (pruneWindow now times),
                  now + (60 - (now - oldest_time) + 2))
               else (pruneWindow now times, now))
          else (pruneWindow now times, now) := by
        rw [rateWait.eq_def]
      rw [hd, if_neg (by omega)]
    have hrec : (enforce_rate_limit cap min_delay times now credits).1 =
        (pruneWindow now times) ++
          [((enforce_rate_limit cap min_delay times now credits).2, credits)] := by
      show (rateWait cap (pruneWindow now times) now credits).1 ++ _ = _
      rw [show (enforce_rate_limit cap min_delay times now credits).2 =
        rateMinDelay min_delay (rateWait cap (pruneWindow now times) now credits).1
          (rateWait cap (pruneWindow now times) now credits).2 from rfl]
      rw [hwait]
    rw [windowCredits, hrec, List.filter_append, List.map_append, List.sum_append]
    have hold : ((List.filter (fun p =>
        decide ((enforce_rate_limit cap min_delay times now credits).2 - 60 < p.1 ∧
          p.1 ≤ (enforce_rate_limit cap min_delay times now credits).2))
        (pruneWindow now times)).map Prod.snd).sum ≤
        ((pruneWindow now times).map Prod.snd).sum :=
      List.Sublist.sum_le_sum ((List.filter_sublist _).map Prod.snd) (fun a _ => Nat.zero_le a)
    have hnew : ((List.filter (fun p =>
        decide ((enforce_rate_limit cap min_delay times now credits).2 - 60 < p.1 ∧
          p.1 ≤ (enforce_rate_limit cap min_delay times now credits).2))
        [((enforce_rate_limit cap min_delay times now credits).2, credits)]).map Prod.snd).sum =
        credits := by
      have hc : ((enforce_rate_limit cap min_delay times now credits).2 - 60 <
          (enforce_rate_limit cap min_delay times now credits).2 ∧
          (enforce_rate_limit cap min_delay times now credits).2 ≤
          (enforce_rate_limit cap min_delay times now credits).2) := ⟨by linarith, le_refl _⟩
      simp [List.filter, hc]
    omega

/-- Witness for the amended C5: one 1-credit call on an empty window with
cap 8 keeps the window within the cap. -/
theorem C5_rate_limiter_window_witness :
    windowCredits (enforce_rate_limit 8 8 [] 0 1).1 (enforce_rate_limit 8 8 [] 0 1).2 ≤ 8 :=
  (C5_rate_limiter_window 8 8 [] 0 1 (by intro p hp; simp at hp)).2.2.2.2
    (by simp [pruneWindow])

end RateLimiter

/-! ## Claim C6: TTL/LRU cache -/

namespace TTLCache

/-- In a list whose keys are distinct, membership with equal keys forces
equality. -/
lemma keys_nodup_eq {α β : Type} {l : List (α × β × ℚ)}
    (hnd : (l.map Prod.fst).Nodup) {a b : α × β × ℚ}
    (ha : a ∈ l) (hb : b ∈ l) (hk : a.1 = b.1) : a = b := by
  induction l with
  | nil => cases ha
  | cons x t ih =>
    rw [List.map_cons, List.nodup_cons] at hnd
    rcases List.mem_cons.mp ha with rfl | ha' <;> rcases List.mem_cons.mp hb with rfl | hb'
    · rfl
    · exact absurd (hk ▸ List.mem_map_of_mem Prod.fst hb') hnd.1
    · exact absurd (hk ▸ List.mem_map_of_mem Prod.fst ha') hnd.1
    · exact ih hnd.2 ha' hb'

lemma evictOldest_of_lt {α β : Type} (m : ℕ) (l : List (α × β × ℚ))
    (h : l.length < m) : evictOldest m l = l := by
  rw [evictOldest.eq_def, dif_neg]
  omega

lemma evictOldest_eq_tail {α β : Type} (m : ℕ) (hm : 1 ≤ m) (l : List (α × β × ℚ))
    (h : l.length = m) : evictOldest m l = l.tail := by
  rw [evictOldest.eq_def, dif_pos (by omega)]
  apply evictOldest_of_lt
  cases l with
  | nil => simp at h; omega
  | cons a t => simp at h ⊢; omega

lemma evictOldest_length {α β : Type} (m : ℕ) (hm : 1 ≤ m) (l : List (α × β × ℚ)) :
    (evictOldest m l).length ≤ m - 1 ∨ (evictOldest m l = l ∧ l.length < m) := by
  induction l with
  | nil =>
    right
    exact ⟨evictOldest_of_lt m [] (by simp; omega), by simp; omega⟩
  | cons a t ih =>
    by_cases hc : m ≤ t.length + 1
    · have hstep : evictOldest m (a :: t) = evictOldest m t := by
        rw [evictOldest.eq_def, dif_pos (by simp; omega)]
        rfl
      rcases ih with hle | ⟨heq, hlt⟩
      · left; rw [hstep]; exact hle
      · left; rw [hstep, heq]; omega
    · right
      refine ⟨evictOldest_of_lt m (a :: t) (by simp; omega), by simp; omega⟩

/-- `set` appends the fresh entry after removing the key. -/
lemma set_entries {α β : Type} [DecidableEq α] (c : Cache α β) (now : ℚ) (k : α) (v : β) :
    (set c now k v).entries =
      (evictOldest c.maxsize c.entries).filter (fun x => x.1 ≠ k) ++ [(k, v, now)] := rfl

lemma setAll_from {α β : Type} [DecidableEq α] (m : ℕ) (ttl : ℚ) :
    ∀ (inserts l : List (α × β × ℚ)),
      ((l ++ inserts).map Prod.fst).Nodup →
      l.length + inserts.length ≤ m →
      setAll ({ maxsize := m, ttl := ttl, entries := l } : Cache α β) inserts =
        { maxsize := m, ttl := ttl, entries := l ++ inserts } := by
  intro inserts
  induction inserts with
  | nil => intro l _ _; simp [setAll]
  | cons e rest ih =>
    intro l hnd hlen
    have hdisj : ∀ x ∈ l, x.1 ≠ e.1 := by
      intro x hx hne
      rw [List.map_append, List.nodup_append] at hnd
      exact hnd.2.2 (List.mem_map_of_mem Prod.fst hx)
        (by rw [hne]; exact List.mem_map_of_mem Prod.fst (List.mem_cons_self e rest))
    have hset : set ({ maxsize := m, ttl := ttl, entries := l } : Cache α β)
        e.2.2 e.1 e.2.1 = { maxsize := m, ttl := ttl, entries := l ++ [e] } := by
      have hev : evictOldest m l = l := by
        apply evictOldest_of_lt
        simp at hlen
        omega
      simp [set, hev, Prod.mk.eta]
      exact fun a b q hmem => hdisj (a, b, q) hmem
    have hstep : setAll ({ maxsize := m, ttl := ttl, entries := l } : Cache α β) (e :: rest) =
        setAll (set { maxsize := m, ttl := ttl, entries := l } e.2.2 e.1 e.2.1) rest := rfl
    rw [hstep, hset, ih (l ++ [e]) (by simpa using hnd) (by simp at hlen ⊢; omega)]
    simp

/-- Inserting `maxsize + 1` distinct keys into an empty cache evicts
exactly the least recently used (first-inserted) entry. -/
lemma setAll_evicts_lru {α β : Type} [DecidableEq α] (m : ℕ) (ttl : ℚ) (hm : 1 ≤ m)
    (inserts : List (α × β × ℚ)) (hnd : (inserts.map Prod.fst).Nodup)
    (hlen : inserts.length = m + 1) :
    (setAll (empty α β m ttl) inserts).entries = inserts.tail := by
  have hdroplen : (inserts.drop m).length = 1 := by
    rw [List.length_drop, hlen]; omega
  rcases hdrop : inserts.drop m with _ | ⟨e, rest⟩
  · rw [hdrop] at hdroplen; simp at hdroplen
  · have hrest : rest = [] := by
      rw [hdrop] at hdroplen
      simpa using hdroplen
    subst hrest
    have hsplit : inserts = inserts.take m ++ [e] := by
      conv_lhs => rw [← List.take_append_drop m inserts]
      rw [hdrop]
    have htakelen : (inserts.take m).length = m := by
      rw [List.length_take]; omega
    have hndtake : ((inserts.take m ++ [e]).map Prod.fst).Nodup := by
      rw [← hsplit]; exact hnd
    have htake : setAll (empty α β m ttl) (inserts.take m) =
        { maxsize := m, ttl := ttl, entries := inserts.take m } := by
      have h0 := setAll_from m ttl (inserts.take m) [] (by
        simp only [List.nil_append]
        exact (((List.take_sublist m inserts).map Prod.fst).nodup hnd))
        (by simp only [List.length_nil, List.length_take]; omega)
      simpa [empty] using h0
    have hkeyse : ∀ x ∈ (inserts.take m).tail, x.1 ≠ e.1 := by
      intro x hx hne
      rw [List.map_append, List.nodup_append] at hndtake
      exact hndtake.2.2
        (List.mem_map_of_mem Prod.fst (List.mem_of_mem_tail hx))
        (by rw [hne]; simp)
    have hev : evictOldest m (inserts.take m) = (inserts.take m).tail :=
      evictOldest_eq_tail m hm (inserts.take m) htakelen
    have hlast : setAll ({ maxsize := m, ttl := ttl, entries := inserts.take m } : Cache α β)
        [e] = { maxsize := m, ttl := ttl, entries := (inserts.take m).tail ++ [e] } := by
      have : setAll ({ maxsize := m, ttl := ttl, entries := inserts.take m } : Cache α β) [e] =
          set { maxsize := m, ttl := ttl, entries := inserts.take m } e.2.2 e.1 e.2.1 := rfl
      rw [this]
      simp [set, hev, Prod.mk.eta]
      exact fun a b q hmem => hkeyse (a, b, q) hmem
    have htne : inserts.take m ≠ [] := by
      intro h0
      rw [h0] at htakelen
      simp at htakelen
      omega
    calc (setAll (empty α β m ttl) inserts).entries
        = (setAll (empty α β m ttl) (inserts.take m ++ [e])).entries := by rw [← hsplit]
      _ = (setAll (setAll (empty α β m ttl) (inserts.take m)) [e]).entries := by
          rw [setAll, List.foldl_append]; rfl
      _ = (inserts.take m).tail ++ [e] := by rw [htake, hlast]
      _ = (inserts.take m ++ [e]).tail := by
          rw [List.tail_append_of_ne_nil htne]
      _ = inserts.tail := by rw [← hsplit]

lemma set_ttl {α β : Type} [DecidableEq α] (c : Cache α β) (now : ℚ) (k : α) (v : β) :
    (set c now k v).ttl = c.ttl := rfl

lemma set_maxsize {α β : Type} [DecidableEq α] (c : Cache α β) (now : ℚ) (k : α) (v : β) :
    (set c now k v).maxsize = c.maxsize := rfl

lemma get_some_iff {α β : Type} [DecidableEq α] (c : Cache α β) (now : ℚ) (k : α) (v : β)
    (hnd : (c.entries.map Prod.fst).Nodup) :
    (get c now k).1 = some v ↔ ∃ ts, (k, v, ts) ∈ c.entries ∧ now - ts ≤ c.ttl := by
  cases hf : c.entries.find? (fun e => e.1 = k) with
  | none =>
    apply iff_of_false
    · simp [get, hf]
    · rintro ⟨ts, hmem, _⟩
      have := List.find?_eq_none.mp hf _ hmem
      simp at this
  | some e =>
    have hek : e.1 = k := by simpa using List.find?_some hf
    have hmem := List.mem_of_find?_eq_some hf
    by_cases hexp : now - e.2.2 > c.ttl
    · apply iff_of_false
      · simp [get, hf, hexp]
      · rintro ⟨ts, hmemk, hts⟩
        have heq : (k, v, ts) = e := keys_nodup_eq hnd hmemk hmem (by simp [hek])
        have hts2 : e.2.2 = ts := by rw [← heq]
        rw [hts2] at hexp
        linarith
    · have hget : (get c now k).1 = some e.2.1 := by simp [get, hf, hexp]
      rw [hget]
      constructor
      · intro h
        have hv : e.2.1 = v := by injection h
        refine ⟨e.2.2, ?_, by linarith [not_lt.mp hexp]⟩
        have : (k, v, e.2.2) = e := by
          rw [← hek, ← hv]
        rw [this]
        exact hmem
      · rintro ⟨ts, hmemk, _⟩
        have heq : (k, v, ts) = e := keys_nodup_eq hnd hmemk hmem (by simp [hek])
        rw [← heq]

lemma get_expired {α β : Type} [DecidableEq α] (c : Cache α β) (now : ℚ) (k : α) (v : β)
    (ts : ℚ) (hnd : (c.entries.map Prod.fst).Nodup) (hmem : (k, v, ts) ∈ c.entries)
    (hexp : c.ttl < now - ts) :
    (get c now k).1 = none ∧ k ∉ (get c now k).2.entries.map Prod.fst := by
  cases hf : c.entries.find? (fun e => e.1 = k) with
  | none =>
    have := List.find?_eq_none.mp hf _ hmem
    simp at this
  | some e =>
    have hek : e.1 = k := by simpa using List.find?_some hf
    have heq : (k, v, ts) = e := keys_nodup_eq hnd hmem
      (List.mem_of_find?_eq_some hf) (by simp [hek])
    have hts : e.2.2 = ts := by rw [← heq]
    have hexp' : now - e.2.2 > c.ttl := by rw [hts]; linarith
    refine ⟨by simp [get, hf, hexp'], ?_⟩
    simp only [get, hf, hexp', if_pos]
    intro hk
    rcases List.mem_map.mp hk with ⟨x, hx, hxk⟩
    have := (List.mem_filter.mp hx).2
    simp [hxk] at this

lemma get_set_within {α β : Type} [DecidableEq α] (c : Cache α β) (now now' : ℚ)
    (k : α) (v : β) (h : now' - now ≤ c.ttl) :
    (get (set c now k v) now' k).1 = some v := by
  have hfirst : ((evictOldest c.maxsize c.entries).filter
      (fun x => x.1 ≠ k)).find? (fun e => e.1 = k) = none := by
    rw [List.find?_eq_none]
    intro x hx
    have := (List.mem_filter.mp hx).2
    simpa using this
  have hf : (set c now k v).entries.find? (fun e => e.1 = k) = some (k, v, now) := by
    rw [set_entries, List.find?_append, hfirst]
    simp [List.find?]
  simp [get, hf, set_ttl, not_lt.mpr h]

lemma get_set_beyond {α β : Type} [DecidableEq α] (c : Cache α β) (now now' : ℚ)
    (k : α) (v : β) (h : c.ttl < now' - now) :
    (get (set c now k v) now' k).1 = none := by
  have hfirst : ((evictOldest c.maxsize c.entries).filter
      (fun x => x.1 ≠ k)).find? (fun e => e.1 = k) = none := by
    rw [List.find?_eq_none]
    intro x hx
    have := (List.mem_filter.mp hx).2
    simpa using this
  have hf : (set c now k v).entries.find? (fun e => e.1 = k) = some (k, v, now) := by
    rw [set_entries, List.find?_append, hfirst]
    simp [List.find?]
  simp [get, hf, set_ttl, h]

lemma set_length_le {α β : Type} [DecidableEq α] (c : Cache α β) (now : ℚ) (k : α) (v : β)
    (hm : 1 ≤ c.maxsize) : (set c now k v).entries.length ≤ c.maxsize := by
  rw [set_entries, List.length_append]
  simp only [List.length_cons, List.length_nil]
  have hev := evictOldest_length c.maxsize hm c.entries
  have hfle := List.length_filter_le (fun x : α × β × ℚ => decide (x.1 ≠ k))
    (evictOldest c.maxsize c.entries)
  rcases hev with hle | ⟨heq, hlt⟩
  · omega
  · rw [heq] at hfle ⊢
    omega

lemma get_length_le {α β : Type} [DecidableEq α] (c : Cache α β) (now : ℚ) (k : α) :
    (get c now k).2.entries.length ≤ c.entries.length := by
  cases hf : c.entries.find? (fun e => e.1 = k) with
  | none => simp [get, hf]
  | some e =>
    have hek : e.1 = k := by simpa using List.find?_some hf
    have hmem := List.mem_of_find?_eq_some hf
    have hlt : (c.entries.filter (fun x => !decide (x.1 = k))).length < c.entries.length := by
      rw [List.length_filter_lt_length_iff_exists]
      exact ⟨e, hmem, by simp [hek]⟩
    by_cases hexp : now - e.2.2 > c.ttl
    · have hpair : (get c now k).2 =
          { c with entries := c.entries.filter (fun x => x.1 ≠ k) } := by
        simp [get, hf, hexp]
      rw [hpair]
      simp only [ne_eq, decide_not]
      omega
    · have hpair : (get c now k).2 =
          { c with entries := c.entries.filter (fun x => x.1 ≠ k) ++ [e] } := by
        simp [get, hf, hexp]
      rw [hpair]
      simp only [ne_eq, decide_not, List.length_append, List.length_cons, List.length_nil]
      omega

lemma set_getLast {α β : Type} [DecidableEq α] (c : Cache α β) (now : ℚ) (k : α) (v : β) :
    (set c now k v).entries.getLast? = some (k, v, now) := by
  rw [set_entries, List.getLast?_concat]

lemma get_hit_getLast {α β : Type} [DecidableEq α] (c : Cache α β) (now : ℚ) (k : α) (v : β)
    (h : (get c now k).1 = some v) :
    ∃ ts, (get c now k).2.entries.getLast? = some (k, v, ts) := by
  cases hf : c.entries.find? (fun e => e.1 = k) with
  | none => rw [get] at h; rw [hf] at h; simp at h
  | some e =>
    have hek : e.1 = k := by simpa using List.find?_some hf
    by_cases hexp : now - e.2.2 > c.ttl
    · rw [get] at h; rw [hf] at h; simp [hexp] at h
    · have hv : e.2.1 = v := by
        rw [get] at h; rw [hf] at h
        simp [hexp] at h
        exact h
      refine ⟨e.2.2, ?_⟩
      have hpair : (get c now k).2 =
          { c with entries := c.entries.filter (fun x => x.1 ≠ k) ++ [e] } := by
        simp [get, hf, hexp]
      rw [hpair]
      simp only [List.getLast?_concat]
      rw [← hek, ← hv]

/-- Claim C6: the TTL/LRU cache — `get` returns the stored value exactly
when the key is present and `now - insertion_time ≤ ttl`, and otherwise
evicts the entry and returns absent; `set` immediately followed by `get`
within the TTL returns the value, and beyond the TTL returns absent;
inserting `maxsize + 1` distinct keys into an empty cache evicts exactly
the least-recently-used entry, with recency refreshed by both `get` hits
and `set`; and the cache never holds more than `maxsize` entries. -/
theorem C6_ttl_lru_cache (α β : Type) [DecidableEq α] :
    (∀ (c : Cache α β) (now : ℚ) (k : α) (v : β),
      (c.entries.map Prod.fst).Nodup →
      ((get c now k).1 = some v ↔ ∃ ts, (k, v, ts) ∈ c.entries ∧ now - ts ≤ c.ttl)) ∧
    (∀ (c : Cache α β) (now : ℚ) (k : α) (v : β) (ts : ℚ),
      (c.entries.map Prod.fst).Nodup → (k, v, ts) ∈ c.entries → c.ttl < now - ts →
      (get c now k).1 = none ∧ k ∉ (get c now k).2.entries.map Prod.fst) ∧
    (∀ (c : Cache α β) (now now' : ℚ) (k : α) (v : β),
      now' - now ≤ c.ttl → (get (set c now k v) now' k).1 = some v) ∧
    (∀ (c : Cache α β) (now now' : ℚ) (k : α) (v : β),
      c.ttl < now' - now → (get (set c now k v) now' k).1 = none) ∧
    (∀ (m : ℕ) (ttl : ℚ) (inserts : List (α × β × ℚ)),
      1 ≤ m → (inserts.map Prod.fst).Nodup → inserts.length = m + 1 →
      (setAll (empty α β m ttl) inserts).entries = inserts.tail) ∧
    (∀ (c : Cache α β) (now : ℚ) (k : α) (v : β),
      1 ≤ c.maxsize → (set c now k v).entries.length ≤ c.maxsize) ∧
    (∀ (c : Cache α β) (now : ℚ) (k : α),
      (get c now k).2.entries.length ≤ c.entries.length) ∧
    (∀ (c : Cache α β) (now : ℚ) (k : α) (v : β),
      (set c now k v).entries.getLast? = some (k, v, now)) ∧
    (∀ (c : Cache α β) (now : ℚ) (k : α) (v : β),
      (get c now k).1 = some v →
      ∃ ts, (get c now k).2.entries.getLast? = some (k, v, ts)) :=
  ⟨fun c now k v hnd => get_some_iff c now k v hnd,
   fun c now k v ts hnd hmem hexp => get_expired c now k v ts hnd hmem hexp,
   fun c now now' k v h => get_set_within c now now' k v h,
   fun c now now' k v h => get_set_beyond c now now' k v h,
   fun m ttl inserts hm hnd hlen => setAll_evicts_lru m ttl hm inserts hnd hlen,
   fun c now k v hm => set_length_le c now k v hm,
   fun c now k => get_length_le c now k,
   fun c now k v => set_getLast c now k v,
   fun c now k v h => get_hit_getLast c now k v h⟩

/-- Witness for C6 over natural-number keys and values: a set followed by a
get within the TTL returns the value. -/
theorem C6_ttl_lru_cache_witness :
    (get (set (empty ℕ ℕ 2 10) 0 1 7) 5 1).1 = some 7 :=
  (C6_ttl_lru_cache ℕ ℕ).2.2.1 (empty ℕ ℕ 2 10) 0 5 1 7 (by norm_num [empty])

end TTLCache

/-! ## Claim C7: retry with exponential backoff -/

namespace Retry

lemma delaySeq_le (initial_delay backoff_factor max_delay : ℚ)
    (hcap : initial_delay ≤ max_delay) :
    ∀ k, delaySeq initial_delay backoff_factor max_delay k ≤ max_delay
  | 0 => hcap
  | k + 1 => min_le_right _ _

lemma delaySeq_shift (initial_delay backoff_factor max_delay : ℚ) :
    ∀ k, delaySeq (min (initial_delay * backoff_factor) max_delay) backoff_factor max_delay k =
      delaySeq initial_delay backoff_factor max_delay (k + 1) := by
  intro k
  induction k with
  | zero => rfl
  | succ k ih => simp only [delaySeq, ih]

lemma sleeps_cons (initial_delay backoff_factor max_delay : ℚ) (r : ℕ) :
    initial_delay :: (List.range r).map
        (fun k => delaySeq (min (initial_delay * backoff_factor) max_delay)
          backoff_factor max_delay k) =
      (List.range (r + 1)).map
        (fun k => delaySeq initial_delay backoff_factor max_delay k) := by
  rw [List.range_succ_eq_map, List.map_cons, List.map_map]
  congr 1
  apply List.map_congr_left
  intro k _
  simpa using delaySeq_shift initial_delay backoff_factor max_delay k

lemma retryLoop_all_fail {α : Type} (f : ℕ → AttemptOutcome α)
    (backoff_factor max_delay : ℚ) (es : ℕ → String) :
    ∀ (r a : ℕ) (d : ℚ), (∀ j, a ≤ j → j ≤ a + r → f j = .exn true (es j)) →
      retryLoop f backoff_factor max_delay r a d =
        (.error (es (a + r)),
         (List.range r).map (fun k => delaySeq d backoff_factor max_delay k), r + 1) := by
  intro r
  induction r with
  | zero =>
    intro a d hf
    simp [retryLoop, hf a le_rfl (by omega)]
  | succ r ih =>
    intro a d hf
    have hfa : f a = .exn true (es a) := hf a le_rfl (by omega)
    have hrec := ih (a + 1) (min (d * backoff_factor) max_delay)
      (fun j hj1 hj2 => hf j (by omega) (by omega))
    simp only [retryLoop, hfa, hrec]
    refine congrArg₂ Prod.mk ?_ (congrArg₂ Prod.mk ?_ rfl)
    · have h1 : a + 1 + r = a + (r + 1) := by omega
      rw [h1]
    · exact sleeps_cons d backoff_factor max_delay r

lemma retryLoop_nonretryable {α : Type} (f : ℕ → AttemptOutcome α)
    (backoff_factor max_delay : ℚ) (es : ℕ → String) (e : String) :
    ∀ (k r a : ℕ) (d : ℚ), k ≤ r →
      (∀ j, a ≤ j → j < a + k → f j = .exn true (es j)) →
      f (a + k) = .exn false e →
      retryLoop f backoff_factor max_delay r a d =
        (.error e, (List.range k).map (fun i => delaySeq d backoff_factor max_delay i),
         k + 1) := by
  intro k
  induction k with
  | zero =>
    intro r a d _ _ hfk
    simp only [Nat.add_zero] at hfk
    cases r <;> simp [retryLoop, hfk]
  | succ k ih =>
    intro r a d hkr hpre hfk
    rcases r with _ | r
    · omega
    · have hfa : f a = .exn true (es a) := hpre a le_rfl (by omega)
      have hrec := ih r (a + 1) (min (d * backoff_factor) max_delay) (by omega)
        (fun j hj1 hj2 => hpre j (by omega) (by omega))
        (by rw [show a + 1 + k = a + (k + 1) from by omega]; exact hfk)
      simp only [retryLoop, hfa, hrec]
      exact congrArg₂ Prod.mk rfl (congrArg₂ Prod.mk
        (sleeps_cons d backoff_factor max_delay k) rfl)

/-- Claim C7: for a wrapped operation that raises a retryable exception on
each invocation, `retry_with_backoff` sleeps the current delay before each
retry, multiplies the delay by `backoff_factor` capped at `max_delay`
after each retry — so the sleep sequence is `initial_delay`,
`min(initial_delay * backoff_factor, max_delay)`, ..., each at most
`max_delay` when `initial_delay ≤ max_delay` — makes `max_retries` retry
attempts after the initial call (`max_retries + 1` invocations in total),
and re-raises the last exception after exhausting retries; an exception
outside the declared retryable set propagates immediately, with no
further attempt and no further sleep. -/
theorem C7_retry_backoff {α : Type} (max_retries : ℕ)
    (initial_delay backoff_factor max_delay : ℚ) (f : ℕ → AttemptOutcome α)
    (es : ℕ → String) (hcap : initial_delay ≤ max_delay) :
    ((∀ j, j ≤ max_retries → f j = .exn true (es j)) →
      retry_with_backoff max_retries initial_delay backoff_factor max_delay f =
        (.error (es max_retries),
         (List.range max_retries).map
           (fun k => delaySeq initial_delay backoff_factor max_delay k),
         max_retries + 1)) ∧
    (∀ k, delaySeq initial_delay backoff_factor max_delay k ≤ max_delay) ∧
    (∀ (k : ℕ) (e : String), k ≤ max_retries →
      (∀ j, j < k → f j = .exn true (es j)) → f k = .exn false e →
      retry_with_backoff max_retries initial_delay backoff_factor max_delay f =
        (.error e,
         (List.range k).map (fun i => delaySeq initial_delay backoff_factor max_delay i),
         k + 1)) := by
  refine ⟨?_, delaySeq_le initial_delay backoff_factor max_delay hcap, ?_⟩
  · intro hf
    have := retryLoop_all_fail f backoff_factor max_delay es max_retries 0 initial_delay
      (fun j hj1 hj2 => hf j (by omega))
    simpa [retry_with_backoff] using this
  · intro k e hk hpre hfk
    have := retryLoop_nonretryable f backoff_factor max_delay es e k max_retries 0
      initial_delay hk (fun j hj1 hj2 => hpre j (by omega)) (by simpa using hfk)
    simpa [retry_with_backoff] using this

/-- Witness for C7: three attempts all failing retryably with delays 1 and
2 (factor 2, cap 60). -/
theorem C7_retry_backoff_witness :
    retry_with_backoff 2 1 2 60 (fun _ => AttemptOutcome.exn true "boom") =
      ((Except.error "boom" : Except String Unit), [(1 : ℚ), 2], 3) := by
  rw [(C7_retry_backoff 2 1 2 60 (fun _ => AttemptOutcome.exn true "boom")
    (fun _ => "boom") (by norm_num)).1 (fun j _ => rfl)]
  norm_num [delaySeq, List.range_succ]

end Retry

/-! ## Claim C10: sentiment adapter fallback -/

namespace Ollama

/-- Claim C10: the LLM sentiment classification adapter never propagates a
parse error or backend failure — when the backend is unavailable, the
generation raises, or the response JSON cannot be extracted, it returns the
deterministic keyword-count fallback classification tagged with a lower
confidence (0.3, 0.2 and 0.3 respectively, all below the 0.5 default) and
a fallback marker (the reasoning string or the recorded error); and in
every case the returned confidence lies in [0, 1]. -/
theorem C10_sentiment_adapter_fallback (env : Env) (text : String) :
    (0 ≤ (analyze_sentiment env text).confidence ∧
      (analyze_sentiment env text).confidence ≤ 1) ∧
    (10 ≤ (pyStrip text).length → env.available = false →
      analyze_sentiment env text =
        { sentiment := fallback_sentiment (text.take 500), confidence := 3/10,
          reasoning := some "Fallback keyword detection", is_valid := true,
          error := none }) ∧
    (∀ e, 10 ≤ (pyStrip text).length → env.available = true → env.generate = .raises e →
      analyze_sentiment env text =
        { sentiment := fallback_sentiment (text.take 500), confidence := 1/5,
          reasoning := none, is_valid := true, error := some e }) ∧
    (∀ r, 10 ≤ (pyStrip text).length → env.available = true → env.generate = .responds r →
      env.parse r = none →
      analyze_sentiment env text =
        { sentiment := fallback_sentiment (text.take 500), confidence := 3/10,
          reasoning := some "Fallback - JSON parsing failed", is_valid := true,
          error := none }) := by
  refine ⟨?_, ?_, ?_, ?_⟩
  · by_cases hshort : (pyStrip text).length < 10
    · simp [analyze_sentiment, hshort]
    · cases hav : env.available with
      | false => simp [analyze_sentiment, hshort, hav]; norm_num
      | true =>
        cases hg : env.generate with
        | raises e => simp [analyze_sentiment, hshort, hav, hg]; norm_num
        | responds r =>
          cases hp : env.parse r with
          | none => simp [analyze_sentiment, hshort, hav, hg, hp]; norm_num
          | some parsed =>
            simp only [analyze_sentiment, hshort, if_neg, hav, Bool.not_true, hg, hp]
            constructor
            · exact le_max_left 0 _
            · exact max_le (by norm_num) (min_le_left 1 _)
  · intro hlen hav
    simp [analyze_sentiment, not_lt.mpr hlen, hav]
  · intro e hlen hav hg
    simp [analyze_sentiment, not_lt.mpr hlen, hav, hg]
  · intro r hlen hav hg hp
    simp [analyze_sentiment, not_lt.mpr hlen, hav, hg, hp]

/-- Witness for C10: an unavailable backend on a concrete headline yields
the keyword fallback with confidence 0.3. -/
theorem C10_sentiment_adapter_fallback_witness :
    analyze_sentiment
        { available := false, generate := .responds "", parse := fun _ => none }
        "stock prices fall sharply today" =
      { sentiment := fallback_sentiment ("stock prices fall sharply today".take 500),
        confidence := 3/10, reasoning := some "Fallback keyword detection",
        is_valid := true, error := none } :=
  (C10_sentiment_adapter_fallback
    { available := false, generate := .responds "", parse := fun _ => none }
    "stock prices fall sharply today").2.1 (by decide) rfl

end Ollama

end PiTrader
